import Mathlib

/-!
# esp32-ac-mitm: the AC protocol engine

A shallow embedding of `main/protocol_parsers.c` (the Manchester line codec)
and `main/ac.c` (the Airwell profile and the AC state machine), followed by
the properties proved about them.

Conventions of the embedding:

* C integers are `Nat`/`Int`; every place where the C code narrows a value
  (a `uint16_t` parameter, a bit-field store, a `uint64_t` shift) carries an
  explicit `%`.
* A `(pointer, len)` pair is a `List` whose length is `len` (in symbols).
* File-scope variables of `ac.c`, together with the outside world the module
  talks to (the NVS store, the heap, the RMT transmitter) are the fields of
  `Engine`; every externally visible call is appended to `Engine.trace`.
-/

namespace AcMitm

/-! ## `driver/rmt_types.h` -/

/-- One RMT symbol: `duration0:15, level0:1, duration1:15, level1:1`. -/
structure rmt_symbol_word_t where
  duration0 : Nat
  level0 : Nat
  duration1 : Nat
  level1 : Nat
deriving DecidableEq, Repr

/-- Size in bytes of one RMT symbol (a 32-bit word). -/
def sizeof_rmt_symbol_word_t : Nat := 4

/-! ## `protocol_parsers.c` -/

/-- The constant `TIMING_TOLERANCE_PERCENT`. -/
def TIMING_TOLERANCE_PERCENT : Nat := 25

/-- The function `is_within_tolerance(uint16_t value, uint16_t expected)`.
`expected * (1 - 25/100.0)` and `expected * (1 + 25/100.0)` are exact in
double precision for a 16-bit `expected`; the conversion to `uint16_t`
truncates toward zero, and is taken modulo `2^16` where the product does not
fit (the C conversion is not defined there). -/
def is_within_tolerance (value expected : Nat) : Bool :=
  let lowerLimit := (expected * (100 - TIMING_TOLERANCE_PERCENT) / 100) % 65536
  let upperLimit := (expected * (100 + TIMING_TOLERANCE_PERCENT) / 100) % 65536
  decide (lowerLimit ≤ value ∧ value ≤ upperLimit)

/-- The three out-parameters of `parse_manchester_data`. -/
structure parse_state where
  backlog_length : Nat
  backlog_level : Nat
  parsed_value : Nat
deriving DecidableEq, Repr

/-- Low phase of one loop iteration of `parse_manchester_data`, after the
duration was accepted. -/
def low_phase (half_period : Nat) (is_low_with_backlog : Bool)
    (st : parse_state) : parse_state :=
  if st.backlog_length ≠ 0 ∧ st.backlog_level = 1 then
    let v := (st.parsed_value * 2 % 2 ^ 64) ||| 1
    if is_low_with_backlog then
      { parsed_value := v, backlog_level := 0, backlog_length := half_period }
    else
      { parsed_value := v, backlog_level := st.backlog_level, backlog_length := 0 }
  else
    { st with backlog_level := 0, backlog_length := half_period }

/-- High phase of one loop iteration of `parse_manchester_data`, after the
duration was accepted. -/
def high_phase (half_period : Nat) (is_high_with_backlog : Bool)
    (st : parse_state) : parse_state :=
  if st.backlog_length ≠ 0 ∧ st.backlog_level = 0 then
    let v := (st.parsed_value * 2 % 2 ^ 64) ||| 0
    if is_high_with_backlog then
      { parsed_value := v, backlog_level := 1, backlog_length := half_period }
    else
      { parsed_value := v, backlog_level := st.backlog_level, backlog_length := 0 }
  else
    { st with backlog_level := 1, backlog_length := half_period }

/-- The function `parse_manchester_data`: the list is `symbols[i..len)`, the
result is the returned index together with the out-parameters as they are
left.  A high phase that is rejected returns after the low phase of the same
symbol has already been applied. -/
def parse_manchester_data (half_period : Nat) :
    List rmt_symbol_word_t → Nat → parse_state → Nat × parse_state
  | [], i, st => (i, st)
  | sym :: rest, i, st =>
    let is_low_with_backlog := is_within_tolerance sym.duration0 (half_period * 2 % 65536)
    if !is_low_with_backlog && !is_within_tolerance sym.duration0 half_period then
      (i, st)
    else
      let st1 := low_phase half_period is_low_with_backlog st
      let is_high_with_backlog := is_within_tolerance sym.duration1 (half_period * 2 % 65536)
      if !is_high_with_backlog && !is_within_tolerance sym.duration1 half_period then
        (i, st1)
      else
        parse_manchester_data half_period rest (i + 1)
          (high_phase half_period is_high_with_backlog st1)

/-- Header-space part of `parse_manchester`: `none` when the header is
rejected, otherwise the initial backlog `(length, level)`. -/
def parse_header_space (sym : rmt_symbol_word_t) (header_space half_period : Nat) :
    Option (Nat × Nat) :=
  if is_within_tolerance sym.duration1 ((header_space + half_period) % 65536) then
    if is_within_tolerance ((sym.duration1 + 65536 - header_space % 65536) % 65536)
        half_period then
      some (half_period, sym.level1)
    else
      some (0, 0)
  else if !is_within_tolerance sym.duration1 header_space then
    none
  else
    some (0, 0)

/-- The function `parse_manchester(symbols, len, header_mark, header_space,
half_period)`; `0` is "no value".  The C code reads `symbols[0]`
unconditionally, so the empty list is outside its contract (the receive task
forwards only receptions of at least 5 symbols); it is given `0` here.
`parsed_items` is a `uint16_t`. -/
def parse_manchester (symbols : List rmt_symbol_word_t)
    (header_mark header_space half_period : Nat) : Nat :=
  match symbols with
  | [] => 0
  | hdr :: body =>
    if !is_within_tolerance hdr.duration0 header_mark then 0
    else
      match parse_header_space hdr header_space half_period with
      | none => 0
      | some (backlog_length, backlog_level) =>
        let r := parse_manchester_data half_period body 0
          { backlog_length := backlog_length, backlog_level := backlog_level,
            parsed_value := 0 }
        let parsed_items := r.1 % 65536
        if parsed_items = 0 then 0 else r.2.parsed_value

/-- Inner loop of `generate_manchester`: the symbols for bits `n-1 .. 0` of
`value`, most significant first. -/
def generate_bits (bit1 bit0 : rmt_symbol_word_t) (value : Nat) :
    Nat → List rmt_symbol_word_t
  | 0 => []
  | n + 1 => (if value.testBit n then bit1 else bit0) :: generate_bits bit1 bit0 value n

/-- Outer loop of `generate_manchester`: `r` repetitions of header plus 34
data symbols. -/
def generate_frames (header bit1 bit0 : rmt_symbol_word_t) (value : Nat) :
    Nat → List rmt_symbol_word_t
  | 0 => []
  | r + 1 => (header :: generate_bits bit1 bit0 value 34) ++
      generate_frames header bit1 bit0 value r

/-- The function `generate_manchester`.  `malloc_ok` is the outcome of the
`malloc` call; the result is `none` for the `-1` return, otherwise the filled
buffer and `*len` (in bytes).  Durations are stored in 15-bit fields. -/
def generate_manchester (malloc_ok : Bool)
    (header_mark header_space repeat_ tail_mark half_period value : Nat) :
    Option (List rmt_symbol_word_t × Nat) :=
  let header : rmt_symbol_word_t :=
    { level0 := 0, duration0 := header_mark % 32768,
      level1 := 1, duration1 := header_space % 32768 }
  let footer : rmt_symbol_word_t :=
    { level0 := 0, duration0 := tail_mark % 32768,
      level1 := 1, duration1 := 0x7FFF }
  let bit0 : rmt_symbol_word_t :=
    { level0 := 0, duration0 := half_period % 32768,
      level1 := 1, duration1 := half_period % 32768 }
  let bit1 : rmt_symbol_word_t :=
    { level0 := 1, duration0 := half_period % 32768,
      level1 := 0, duration1 := half_period % 32768 }
  let len := sizeof_rmt_symbol_word_t * (((1 + 34) * repeat_) + 1)
  if !malloc_ok then none
  else some (generate_frames header bit1 bit0 value repeat_ ++ [footer], len)

/-! ## `ac.h` -/

abbrev AC_MODE_FAN : Int := 0
abbrev AC_MODE_COOL : Int := 1
abbrev AC_MODE_HEAT : Int := 2
abbrev AC_MODE_DRY : Int := 3
abbrev AC_MODE_AUTO : Int := 4

abbrev AC_FAN_LOW : Int := 0
abbrev AC_FAN_MEDIUM : Int := 1
abbrev AC_FAN_HIGH : Int := 2
abbrev AC_FAN_AUTO : Int := 3

/-! ## `ac.c`: data -/

/-- Which pair of `ir_recv` / `ir_send` functions a profile points to. -/
inductive ac_codec_t where
  | airwell
deriving DecidableEq, Repr

/-- The profile record `ac_ops_t`; the two function pointers are the `codec`
tag.  The two arrays are kept with their `-1` terminator. -/
structure ac_ops_t where
  name : String
  codec : ac_codec_t
  min_temperature : Int
  max_temperature : Int
  supported_fans : List Int
  supported_modes : List Int
deriving DecidableEq, Repr

/-- The union `current_state`: the five bit-fields `detected_power:1, power:1,
temperature:7, fan:4, mode:4` and the 47 unnamed bits that the `data` member
overlays. -/
structure current_state_t where
  detected_power : Nat
  power : Nat
  temperature : Nat
  fan : Nat
  mode : Nat
  reserved : Nat
deriving DecidableEq, Repr

/-- The member `current_state.data`: bit-fields are allocated from the least
significant bit. -/
def current_state_t.data (s : current_state_t) : Nat :=
  s.detected_power % 2 + 2 * (s.power % 2) + 4 * (s.temperature % 128) +
    512 * (s.fan % 16) + 8192 * (s.mode % 16) + 131072 * (s.reserved % 2 ^ 47)

/-- Assignment to `current_state.data`. -/
def current_state_t.of_data (d : Nat) : current_state_t :=
  { detected_power := d % 2
    power := d / 2 % 2
    temperature := d / 4 % 128
    fan := d / 512 % 16
    mode := d / 8192 % 16
    reserved := d / 131072 % 2 ^ 47 }

/-- A state whose fields fit their bit-fields. -/
def current_state_t.wf (s : current_state_t) : Prop :=
  s.detected_power < 2 ∧ s.power < 2 ∧ s.temperature < 128 ∧ s.fan < 16 ∧
    s.mode < 16 ∧ s.reserved < 2 ^ 47

/-- One entry of a value table, `value_mode_t`. -/
structure value_mode_t where
  value : Int
  mode : Int
deriving DecidableEq, Repr

/-- Calls that leave `ac.c`: the four change callbacks, the persistence call
and the transmit request. -/
inductive Effect where
  | on_power_changed (on_ : Bool)
  | on_temperature_changed (temperature : Int)
  | on_mode_changed (mode : Int)
  | on_fan_changed (fan : Int)
  | config_ac_persistent_save (data : Nat)
  | ir_send (symbols : List rmt_symbol_word_t) (len : Nat)
deriving DecidableEq, Repr

/-- What the outside world answers during one call: whether `nvs_set_u64` and
`nvs_commit` return `ESP_OK`, whether `malloc` returns a buffer, and what
`rmt_transmit` returns. -/
structure World where
  nvs_ok : Bool
  malloc_ok : Bool
  rmt_transmit_ret : Int
deriving DecidableEq, Repr

/-- The file-scope variables of `ac.c` (`ac_ops`, the four callback pointers,
`current_state`), the stored NVS entry `nvs_ac_state` (`none` while the key was
never written), the world's answers and the log of outgoing calls. -/
structure Engine where
  ac_ops : Option ac_ops_t
  on_power_changed_cb : Bool
  on_temperature_changed_cb : Bool
  on_mode_changed_cb : Bool
  on_fan_changed_cb : Bool
  current_state : current_state_t
  nvs_ac_state : Option Nat
  world : World
  trace : List Effect
deriving DecidableEq, Repr

/-! ## `config.c`: persistence of the AC state -/

/-- The function `config_ac_persistent_save`. -/
def config_ac_persistent_save (e : Engine) (data : Nat) : Engine × Int :=
  let e1 := { e with trace := e.trace ++ [Effect.config_ac_persistent_save data] }
  if !e1.world.nvs_ok then (e1, -1)
  else ({ e1 with nvs_ac_state := some data }, 0)

/-- The function `config_ac_persistent_load`: `data` stays `0` when
`nvs_get_u64` finds nothing. -/
def config_ac_persistent_load (e : Engine) : Nat :=
  match e.nvs_ac_state with
  | none => 0
  | some data => data

/-! ## `ir.c` -/

/-- The function `ir_send`: hands the buffer to `rmt_transmit`. -/
def ir_send (e : Engine) (symbols : List rmt_symbol_word_t) (len : Nat) : Engine × Int :=
  ({ e with trace := e.trace ++ [Effect.ir_send symbols len] }, e.world.rmt_transmit_ret)

/-! ## `ac.c`: value tables and `update_state` -/

/-- The function `value_to_mode`: the table ends at the entry whose `value`
is `-1`. -/
def value_to_mode : List value_mode_t → Int → Int
  | [], _ => -1
  | vm :: rest, value =>
    if vm.value = -1 then -1
    else if value = vm.value then vm.mode
    else value_to_mode rest value

/-- The function `mode_to_value`. -/
def mode_to_value : List value_mode_t → Int → Int
  | [], _ => -1
  | vm :: rest, mode =>
    if vm.value = -1 then -1
    else if mode = vm.mode then vm.value
    else mode_to_value rest mode

/-- Invocation of a callback pointer guarded by `if (cb)`. -/
def invoke_cb (registered : Bool) (ev : Effect) (e : Engine) : Engine :=
  if registered then { e with trace := e.trace ++ [ev] } else e

/-- First block of `update_state`. -/
def update_power (e : Engine) (power : Int) : Engine :=
  if power ≠ -1 ∧ (e.current_state.power : Int) ≠ power then
    invoke_cb e.on_power_changed_cb (Effect.on_power_changed (decide (power ≠ 0)))
      { e with current_state := { e.current_state with power := (power % 2).toNat } }
  else e

/-- Second block of `update_state`. -/
def update_temperature (e : Engine) (temperature : Int) : Engine :=
  if temperature ≠ -1 ∧ (e.current_state.temperature : Int) ≠ temperature then
    invoke_cb e.on_temperature_changed_cb (Effect.on_temperature_changed temperature)
      { e with current_state :=
          { e.current_state with temperature := (temperature % 128).toNat } }
  else e

/-- Third block of `update_state`. -/
def update_mode (e : Engine) (mode : Int) : Engine :=
  if mode ≠ -1 ∧ (e.current_state.mode : Int) ≠ mode then
    invoke_cb e.on_mode_changed_cb (Effect.on_mode_changed mode)
      { e with current_state := { e.current_state with mode := (mode % 16).toNat } }
  else e

/-- Fourth block of `update_state`. -/
def update_fan (e : Engine) (fan : Int) : Engine :=
  if fan ≠ -1 ∧ (e.current_state.fan : Int) ≠ fan then
    invoke_cb e.on_fan_changed_cb (Effect.on_fan_changed fan)
      { e with current_state := { e.current_state with fan := (fan % 16).toNat } }
  else e

/-- The function `update_state(power, temperature, mode, fan)`. -/
def update_state (e : Engine) (power temperature mode fan : Int) : Engine :=
  let e1 := update_power e power
  let e2 := update_temperature e1 temperature
  let e3 := update_mode e2 mode
  let e4 := update_fan e3 fan
  (config_ac_persistent_save e4 e4.current_state.data).1

/-! ## `ac.c`: Airwell -/

/-- The designated initialiser of `airwell_t` used by `airwell_ir_send`:
`one` is bit 1, `temp` bits 19..22, `fan` bits 28..29, `mode` bits 30..32,
`power_toggle` bit 33; every other bit is zero. -/
def airwell_t.raw (one temp fan mode power_toggle : Int) : Nat :=
  2 * (one % 2).toNat + 2 ^ 19 * (temp % 16).toNat + 2 ^ 28 * (fan % 4).toNat +
    2 ^ 30 * (mode % 8).toNat + 2 ^ 33 * (power_toggle % 2).toNat

/-- Field `temp` of `airwell_t`. -/
def airwell_t.temp (raw : Nat) : Nat := raw / 2 ^ 19 % 16

/-- Field `fan` of `airwell_t`. -/
def airwell_t.fan (raw : Nat) : Nat := raw / 2 ^ 28 % 4

/-- Field `mode` of `airwell_t`. -/
def airwell_t.mode (raw : Nat) : Nat := raw / 2 ^ 30 % 8

/-- Field `power_toggle` of `airwell_t`. -/
def airwell_t.power_toggle (raw : Nat) : Nat := raw / 2 ^ 33 % 2

/-- The table `airwell_modes`. -/
def airwell_modes : List value_mode_t :=
  [⟨1, AC_MODE_COOL⟩, ⟨2, AC_MODE_HEAT⟩, ⟨3, AC_MODE_AUTO⟩, ⟨4, AC_MODE_DRY⟩,
   ⟨5, AC_MODE_FAN⟩, ⟨-1, AC_MODE_AUTO⟩]

/-- The table `airwell_fans`. -/
def airwell_fans : List value_mode_t :=
  [⟨0, AC_FAN_LOW⟩, ⟨1, AC_FAN_MEDIUM⟩, ⟨2, AC_FAN_HIGH⟩, ⟨3, AC_FAN_AUTO⟩,
   ⟨-1, AC_MODE_AUTO⟩]

/-- The function `airwell_ir_recv`. -/
def airwell_ir_recv (e : Engine) (symbols : List rmt_symbol_word_t) : Engine × Int :=
  let raw := parse_manchester symbols (3 * 950) (3 * 950) 950
  if raw = 0 then (e, -1)
  else
    (update_state e
      (if airwell_t.power_toggle raw ≠ 0 then
        (if e.current_state.power = 0 then 1 else 0) else -1)
      ((airwell_t.temp raw : Int) + 15)
      (value_to_mode airwell_modes (airwell_t.mode raw))
      (value_to_mode airwell_fans (airwell_t.fan raw)), 0)

/-- The word `airwell.raw` built at the top of `airwell_ir_send`. -/
def airwell_word (s : current_state_t) : Nat :=
  airwell_t.raw 1 ((s.temperature : Int) - 15)
    (mode_to_value airwell_fans s.fan) (mode_to_value airwell_modes s.mode)
    (if s.detected_power ≠ s.power then 1 else 0)

/-- The function `airwell_ir_send`. -/
def airwell_ir_send (e : Engine) : Engine × Int :=
  let airwell := airwell_word e.current_state
  if e.current_state.power = 0 ∧ e.current_state.detected_power = 0 then (e, 0)
  else
    match generate_manchester e.world.malloc_ok (3 * 950) (3 * 950) 3 (4 * 950) 950
        airwell with
    | none => (e, -1)
    | some (symbols, len) => ir_send e symbols len

/-- The profile `airwell`. -/
def airwell : ac_ops_t :=
  { name := "Airwell"
    codec := ac_codec_t.airwell
    min_temperature := 16
    max_temperature := 30
    supported_fans := [AC_FAN_LOW, AC_FAN_MEDIUM, AC_FAN_HIGH, AC_FAN_AUTO, -1]
    supported_modes :=
      [AC_MODE_COOL, AC_MODE_HEAT, AC_MODE_AUTO, AC_MODE_DRY, AC_MODE_FAN, -1] }

/-! ## `ac.c`: general -/

/-- The array `acs` (up to its `NULL` terminator). -/
def acs : List ac_ops_t := [airwell]

/-- The function `ac_ir_recv`; `none` is the dereference of a `NULL`
`ac_ops`. -/
def ac_ir_recv (e : Engine) (symbols : List rmt_symbol_word_t) : Option (Engine × Int) :=
  match e.ac_ops with
  | none => none
  | some ops =>
    match ops.codec with
    | ac_codec_t.airwell => some (airwell_ir_recv e symbols)

/-- The function `ac_ir_send`; `none` is the dereference of a `NULL`
`ac_ops`. -/
def ac_ir_send (e : Engine) : Option (Engine × Int) :=
  match e.ac_ops with
  | none => none
  | some ops =>
    match ops.codec with
    | ac_codec_t.airwell => some (airwell_ir_send e)

/-- The store `current_state.detected_power = on`. -/
def store_detected_power (e : Engine) (on_ : Bool) : Engine :=
  { e with current_state :=
    { e.current_state with detected_power := if on_ then 1 else 0 } }

/-- The function `ac_set_detected_power(bool on)`. -/
def ac_set_detected_power (e : Engine) (on_ : Bool) : Option Engine :=
  let e1 := store_detected_power e on_
  if e1.current_state.detected_power ≠ e1.current_state.power then
    (ac_ir_send e1).map Prod.fst
  else some e1

/-- The function `ac_set_power(bool on)`. -/
def ac_set_power (e : Engine) (on_ : Bool) : Engine × Int :=
  (update_state e (if on_ then 1 else 0) (-1) (-1) (-1), 0)

/-- The function `ac_set_temperature`; `none` is the dereference of a `NULL`
`ac_ops`. -/
def ac_set_temperature (e : Engine) (temperature : Int) : Option (Engine × Int) :=
  match e.ac_ops with
  | none => none
  | some ops =>
    if temperature < ops.min_temperature ∨ temperature > ops.max_temperature then
      some (e, -1)
    else
      some (update_state e (-1) temperature (-1) (-1), 0)

/-- The loop of `ac_set_mode` over `supported_modes`, which stops at `-1`. -/
def ac_set_mode_loop (e : Engine) (mode : Int) : List Int → Engine × Int
  | [] => (e, -1)
  | x :: rest =>
    if x = -1 then (e, -1)
    else if x = mode then (update_state e (-1) (-1) mode (-1), 0)
    else ac_set_mode_loop e mode rest

/-- The function `ac_set_mode`. -/
def ac_set_mode (e : Engine) (mode : Int) : Option (Engine × Int) :=
  match e.ac_ops with
  | none => none
  | some ops => some (ac_set_mode_loop e mode ops.supported_modes)

/-- The loop of `ac_set_fan` over `supported_fans`, which stops at `-1`. -/
def ac_set_fan_loop (e : Engine) (fan : Int) : List Int → Engine × Int
  | [] => (e, -1)
  | x :: rest =>
    if x = -1 then (e, -1)
    else if x = fan then (update_state e (-1) (-1) (-1) fan, 0)
    else ac_set_fan_loop e fan rest

/-- The function `ac_set_fan`. -/
def ac_set_fan (e : Engine) (fan : Int) : Option (Engine × Int) :=
  match e.ac_ops with
  | none => none
  | some ops => some (ac_set_fan_loop e fan ops.supported_fans)

/-- The libc function `tolower` on a character code. -/
def tolower (c : Nat) : Int :=
  if 65 ≤ c ∧ c ≤ 90 then (c : Int) + 32 else (c : Int)

/-- The libc function `strcasecmp` on the characters of two strings: `0` when
they are equal up to the case of ASCII letters, otherwise the difference of
the first two lowered characters that differ. -/
def strcasecmp_chars : List Char → List Char → Int
  | [], [] => 0
  | [], b :: _ => 0 - tolower b.toNat
  | a :: _, [] => tolower a.toNat
  | a :: as, b :: bs =>
    if tolower a.toNat = tolower b.toNat then strcasecmp_chars as bs
    else tolower a.toNat - tolower b.toNat

/-- The libc function `strcasecmp`. -/
def strcasecmp (a b : String) : Int := strcasecmp_chars a.toList b.toList

/-- The lookup loop of `ac_initialize` over `acs`. -/
def ac_initialize_loop (model : String) : List ac_ops_t → Option ac_ops_t
  | [] => none
  | ops :: rest =>
    if strcasecmp model ops.name ≠ 0 then ac_initialize_loop model rest
    else some ops

/-- The function `ac_initialize`. -/
def ac_initialize (e : Engine) (model : String) : Engine × Int :=
  let e1 :=
    match ac_initialize_loop model acs with
    | some ops => { e with ac_ops := some ops }
    | none => e
  match e1.ac_ops with
  | none => (e1, -1)
  | some _ =>
    ({ e1 with current_state := current_state_t.of_data (config_ac_persistent_load e1) }, 0)

/-! ## Call sequences -/

/-- A call of the public interface of `ac.c` that can change the state. -/
inductive Call where
  | ac_set_power (on_ : Bool)
  | ac_set_temperature (temperature : Int)
  | ac_set_mode (mode : Int)
  | ac_set_fan (fan : Int)
  | ac_set_detected_power (on_ : Bool)
  | ac_ir_recv (symbols : List rmt_symbol_word_t)
deriving DecidableEq, Repr

/-- The engine after one call (the returned status is dropped). -/
def step (e : Engine) : Call → Option Engine
  | Call.ac_set_power b => some (ac_set_power e b).1
  | Call.ac_set_temperature t => (ac_set_temperature e t).map Prod.fst
  | Call.ac_set_mode m => (ac_set_mode e m).map Prod.fst
  | Call.ac_set_fan f => (ac_set_fan e f).map Prod.fst
  | Call.ac_set_detected_power b => ac_set_detected_power e b
  | Call.ac_ir_recv symbols => (ac_ir_recv e symbols).map Prod.fst

/-- The engine after a sequence of calls, each made in the world given with
it. -/
def run (e : Engine) : List (World × Call) → Option Engine
  | [] => some e
  | (w, c) :: rest =>
    match step { e with world := w } c with
    | none => none
    | some e1 => run e1 rest

/-- An engine before `ac_initialize`: the initial values of the file-scope
variables of `ac.c`, over a given NVS entry and world. -/
def Engine.boot (nvs_ac_state : Option Nat) (world : World) : Engine :=
  { ac_ops := none
    on_power_changed_cb := false
    on_temperature_changed_cb := false
    on_mode_changed_cb := false
    on_fan_changed_cb := false
    current_state :=
      { detected_power := 0, power := 0, temperature := 0, fan := 0, mode := 0,
        reserved := 0 }
    nvs_ac_state := nvs_ac_state
    world := world
    trace := [] }

/-- The four setters `ac_set_on_*_changed_cb`, called with non-`NULL`
callbacks as `app_main` does. -/
def Engine.register_cbs (e : Engine) : Engine :=
  { e with
    on_power_changed_cb := true
    on_temperature_changed_cb := true
    on_mode_changed_cb := true
    on_fan_changed_cb := true }

/-! ## Vocabulary of the statements -/

/-- The body symbol `bit0` that `generate_manchester` writes for the Airwell
half period. -/
def airwell_bit0 : rmt_symbol_word_t :=
  { level0 := 0, duration0 := 950, level1 := 1, duration1 := 950 }

/-- The body symbol `bit1` that `generate_manchester` writes for the Airwell
half period. -/
def airwell_bit1 : rmt_symbol_word_t :=
  { level0 := 1, duration0 := 950, level1 := 0, duration1 := 950 }

/-- An argument of `update_state` is present and differs from the field. -/
def differs (arg : Int) (prior : Nat) : Bool :=
  decide (arg ≠ -1 ∧ (prior : Int) ≠ arg)

/-- Value of `power` once `update_state` has run. -/
def new_power (s : current_state_t) (power : Int) : Nat :=
  if power ≠ -1 ∧ (s.power : Int) ≠ power then (power % 2).toNat else s.power

/-- Value of `temperature` once `update_state` has run. -/
def new_temperature (s : current_state_t) (temperature : Int) : Nat :=
  if temperature ≠ -1 ∧ (s.temperature : Int) ≠ temperature then (temperature % 128).toNat
  else s.temperature

/-- Value of `mode` once `update_state` has run. -/
def new_mode (s : current_state_t) (mode : Int) : Nat :=
  if mode ≠ -1 ∧ (s.mode : Int) ≠ mode then (mode % 16).toNat else s.mode

/-- Value of `fan` once `update_state` has run. -/
def new_fan (s : current_state_t) (fan : Int) : Nat :=
  if fan ≠ -1 ∧ (s.fan : Int) ≠ fan then (fan % 16).toNat else s.fan

/-- The state `update_state` leaves. -/
def updated (s : current_state_t) (power temperature mode fan : Int) : current_state_t :=
  { s with
    power := new_power s power
    temperature := new_temperature s temperature
    mode := new_mode s mode
    fan := new_fan s fan }

/-- The callbacks `update_state` invokes, in the order of the calls. -/
def fired (e : Engine) (power temperature mode fan : Int) : List Effect :=
  (if (power ≠ -1 ∧ (e.current_state.power : Int) ≠ power) ∧ e.on_power_changed_cb = true
    then [Effect.on_power_changed (decide (power ≠ 0))] else []) ++
  (if (temperature ≠ -1 ∧ (e.current_state.temperature : Int) ≠ temperature) ∧
      e.on_temperature_changed_cb = true
    then [Effect.on_temperature_changed temperature] else []) ++
  (if (mode ≠ -1 ∧ (e.current_state.mode : Int) ≠ mode) ∧ e.on_mode_changed_cb = true
    then [Effect.on_mode_changed mode] else []) ++
  (if (fan ≠ -1 ∧ (e.current_state.fan : Int) ≠ fan) ∧ e.on_fan_changed_cb = true
    then [Effect.on_fan_changed fan] else [])

/-- The effect is one of the four change callbacks. -/
def Effect.is_notification : Effect → Bool
  | Effect.on_power_changed _ => true
  | Effect.on_temperature_changed _ => true
  | Effect.on_mode_changed _ => true
  | Effect.on_fan_changed _ => true
  | _ => false

/-- The effect is a call of `config_ac_persistent_save`. -/
def Effect.is_persist : Effect → Bool
  | Effect.config_ac_persistent_save _ => true
  | _ => false

/-- The effect is a call of `ir_send`. -/
def Effect.is_transmit : Effect → Bool
  | Effect.ir_send _ _ => true
  | _ => false

/-- A world in which every outside call succeeds. -/
def World.good : World := { nvs_ok := true, malloc_ok := true, rmt_transmit_ret := 0 }

/-- The engine as `app_main` sets it up on a first run: `ac_initialize` on an
empty NVS, then the four callbacks registered. -/
def Engine.demo : Engine :=
  ( ac_initialize (Engine.boot none World.good) "airwell").1.register_cbs

/-- A reception whose word is `2` (only the bit `one`): header space extended
by a half period, one doubled low phase, then a tail that ends the body. -/
def frame_nibble_zero : List rmt_symbol_word_t :=
  [⟨2850, 0, 3800, 1⟩, ⟨1900, 0, 950, 1⟩, ⟨3800, 0, 32767, 1⟩, ⟨950, 0, 950, 1⟩,
   ⟨950, 0, 950, 1⟩]

/-- A reception of the Airwell word `0x270280002` (toggle `1`, mode code `1`,
fan code `3`, temperature nibble `5`, bit `one`) as the receiver reports it:
low and high durations alternate, and two equal half periods in a row are one
doubled duration. -/
def frame_cool_auto_20 : List rmt_symbol_word_t :=
  [⟨2850, 0, 3800, 1⟩, ⟨1900, 0, 950, 1⟩, ⟨950, 0, 1900, 1⟩, ⟨950, 0, 950, 1⟩,
   ⟨950, 0, 950, 1⟩, ⟨1900, 0, 950, 1⟩, ⟨950, 0, 950, 1⟩, ⟨950, 0, 950, 1⟩,
   ⟨950, 0, 950, 1⟩, ⟨950, 0, 950, 1⟩, ⟨950, 0, 1900, 1⟩, ⟨1900, 0, 1900, 1⟩,
   ⟨1900, 0, 950, 1⟩, ⟨950, 0, 950, 1⟩, ⟨950, 0, 950, 1⟩, ⟨950, 0, 950, 1⟩,
   ⟨950, 0, 950, 1⟩, ⟨950, 0, 950, 1⟩, ⟨950, 0, 950, 1⟩, ⟨950, 0, 950, 1⟩,
   ⟨950, 0, 950, 1⟩, ⟨950, 0, 950, 1⟩, ⟨950, 0, 950, 1⟩, ⟨950, 0, 950, 1⟩,
   ⟨950, 0, 950, 1⟩, ⟨950, 0, 950, 1⟩, ⟨950, 0, 950, 1⟩, ⟨950, 0, 950, 1⟩,
   ⟨950, 0, 1900, 1⟩, ⟨1900, 0, 950, 1⟩, ⟨3800, 0, 32767, 1⟩]

/-- The first-run engine with `power` switched on by `ac_set_power(true)`. -/
def Engine.demo_on : Engine := (ac_set_power Engine.demo true).1

/-- A reception of the Airwell word `0x3e0280002`: toggle `1`, mode code `7`
(which has no entry in `airwell_modes`), fan code `2`, temperature nibble
`5`, bit `one`. -/
def frame_mode_seven : List rmt_symbol_word_t :=
  [⟨2850, 0, 3800, 1⟩, ⟨950, 0, 950, 1⟩, ⟨950, 0, 950, 1⟩, ⟨950, 0, 950, 1⟩,
   ⟨950, 0, 950, 1⟩, ⟨1900, 0, 950, 1⟩, ⟨950, 0, 950, 1⟩, ⟨950, 0, 950, 1⟩,
   ⟨950, 0, 950, 1⟩, ⟨950, 0, 950, 1⟩, ⟨950, 0, 950, 1⟩, ⟨950, 0, 1900, 1⟩,
   ⟨1900, 0, 1900, 1⟩, ⟨1900, 0, 950, 1⟩, ⟨950, 0, 950, 1⟩, ⟨950, 0, 950, 1⟩,
   ⟨950, 0, 950, 1⟩, ⟨950, 0, 950, 1⟩, ⟨950, 0, 950, 1⟩, ⟨950, 0, 950, 1⟩,
   ⟨950, 0, 950, 1⟩, ⟨950, 0, 950, 1⟩, ⟨950, 0, 950, 1⟩, ⟨950, 0, 950, 1⟩,
   ⟨950, 0, 950, 1⟩, ⟨950, 0, 950, 1⟩, ⟨950, 0, 950, 1⟩, ⟨950, 0, 950, 1⟩,
   ⟨950, 0, 950, 1⟩, ⟨950, 0, 1900, 1⟩, ⟨1900, 0, 950, 1⟩, ⟨3800, 0, 32767, 1⟩]

/-- A reception whose header space lasts `4700`: outside the tolerance of the
header space `2850`, inside that of `2850 + 950`, with an excess `1850` that is
no half period.  The two body pulses that follow carry the bits `0` and
`1`. -/
def frame_long_space : List rmt_symbol_word_t :=
  [⟨2850, 0, 4700, 1⟩, ⟨950, 0, 1900, 1⟩, ⟨950, 0, 950, 1⟩, ⟨3800, 0, 32767, 1⟩,
   ⟨950, 0, 950, 1⟩]

/-- A reception whose second body pulse has a low duration of `500`, followed
by further well-formed pulses. -/
def frame_body_miss : List rmt_symbol_word_t :=
  [⟨2850, 0, 3800, 1⟩, ⟨1900, 0, 950, 1⟩, ⟨500, 0, 950, 1⟩, ⟨950, 0, 950, 1⟩,
   ⟨950, 0, 1900, 1⟩, ⟨3800, 0, 32767, 1⟩]

/-- The low duration of a body pulse is within tolerance of one or of two
half periods. -/
def low_ok (half_period : Nat) (sym : rmt_symbol_word_t) : Bool :=
  is_within_tolerance sym.duration0 (half_period * 2 % 65536) ||
    is_within_tolerance sym.duration0 half_period

/-- The high duration of a body pulse is within tolerance of one or of two
half periods. -/
def high_ok (half_period : Nat) (sym : rmt_symbol_word_t) : Bool :=
  is_within_tolerance sym.duration1 (half_period * 2 % 65536) ||
    is_within_tolerance sym.duration1 half_period

/-- The out-parameters after the low phase of a body pulse. -/
def after_low (half_period : Nat) (st : parse_state) (sym : rmt_symbol_word_t) :
    parse_state :=
  low_phase half_period (is_within_tolerance sym.duration0 (half_period * 2 % 65536)) st

/-- The out-parameters after both phases of a body pulse. -/
def after_pulse (half_period : Nat) (st : parse_state) (sym : rmt_symbol_word_t) :
    parse_state :=
  high_phase half_period (is_within_tolerance sym.duration1 (half_period * 2 % 65536))
    (after_low half_period st sym)

/-- The value of a `uint64_t` after the given bits were shifted in one by one,
first bit first. -/
def append_bits (v : Nat) (bits : List Bool) : Nat :=
  bits.foldl (fun acc b => (2 * acc + (if b then 1 else 0)) % 2 ^ 64) v

/-! ## `ac_mitm.c`: handlers run by the event task -/

/-- The function `ir_on_recv`: decode, and on success send the state back
out.  `none` is the dereference of a `NULL` `ac_ops`. -/
def ir_on_recv (e : Engine) (symbols : List rmt_symbol_word_t) : Option Engine :=
  match ac_ir_recv e symbols with
  | none => none
  | some (e1, r) => if r ≠ 0 then some e1 else (ac_ir_send e1).map Prod.fst

/-- The function `ac_on_mqtt_mode`: `ac_set_power(1)`, then `ac_set_mode`, and
on success `ac_ir_send`.  `none` is the dereference of a `NULL` `ac_ops`. -/
def ac_on_mqtt_mode (e : Engine) (mode : Int) : Option Engine :=
  let e1 := (ac_set_power e true).1
  match ac_set_mode e1 mode with
  | none => none
  | some (e2, r) => if r ≠ 0 then some e2 else (ac_ir_send e2).map Prod.fst

/-- The call of `update_state` that `airwell_ir_recv` makes for a decoded word
`w`. -/
def decode_update (e : Engine) (w : Nat) : Engine :=
  update_state e
    (if airwell_t.power_toggle w ≠ 0 then (if e.current_state.power = 0 then 1 else 0)
      else -1)
    ((airwell_t.temp w : Int) + 15)
    (value_to_mode airwell_modes (airwell_t.mode w))
    (value_to_mode airwell_fans (airwell_t.fan w))

/-! ## Theorems -/

set_option maxRecDepth 8000

/-! ### The codec on the encoder's own output -/

/-- A symbol whose two durations are one half period, met with an empty
backlog and value `0`, is consumed and leaves both as they were. -/
theorem parse_data_single_period (sym : rmt_symbol_word_t)
    (h0 : sym.duration0 = 950) (h1 : sym.duration1 = 950)
    (rest : List rmt_symbol_word_t) (i : Nat) :
    parse_manchester_data 950 (sym :: rest) i ⟨0, 0, 0⟩ =
      parse_manchester_data 950 rest (i + 1) ⟨0, 0, 0⟩ := by
  simp [parse_manchester_data, h0, h1, is_within_tolerance, TIMING_TOLERANCE_PERCENT,
    low_phase, high_phase]

/-- The data symbols of one generated frame are consumed by the body parser
without any bit being set. -/
theorem parse_data_generate_bits (value n : Nat) (rest : List rmt_symbol_word_t) (i : Nat) :
    parse_manchester_data 950 (generate_bits airwell_bit1 airwell_bit0 value n ++ rest) i
        ⟨0, 0, 0⟩ =
      parse_manchester_data 950 rest (i + n) ⟨0, 0, 0⟩ := by
  induction n generalizing i with
  | zero => simp [generate_bits]
  | succ k ih =>
    have hstep : ∀ sym : rmt_symbol_word_t,
        sym = airwell_bit1 ∨ sym = airwell_bit0 →
        parse_manchester_data 950 (sym :: (generate_bits airwell_bit1 airwell_bit0 value k
          ++ rest)) i ⟨0, 0, 0⟩ = parse_manchester_data 950 rest (i + (k + 1)) ⟨0, 0, 0⟩ := by
      intro sym hsym
      have hd : sym.duration0 = 950 ∧ sym.duration1 = 950 := by
        rcases hsym with h | h <;> subst h <;> exact ⟨rfl, rfl⟩
      rw [parse_data_single_period sym hd.1 hd.2, ih]
      congr 1
      omega
    by_cases hb : value.testBit k
    · simpa [generate_bits, hb] using hstep airwell_bit1 (Or.inl rfl)
    · simpa [generate_bits, hb] using hstep airwell_bit0 (Or.inr rfl)

/-- The inner loop writes one symbol per bit. -/
theorem generate_bits_length (bit1 bit0 : rmt_symbol_word_t) (value n : Nat) :
    (generate_bits bit1 bit0 value n).length = n := by
  induction n with
  | zero => rfl
  | succ k ih => simp [generate_bits, ih]

/-- C1, as stated, fails: for the word `1` the encoder (Airwell timings,
`repeat = 1`) produces 36 symbols, and `parse_manchester` on exactly these
symbols returns `0`, not `1`. -/
theorem round_trip_fails_at_one :
    ∃ symbols len, generate_manchester true 2850 2850 1 3800 950 1 = some (symbols, len) ∧
      symbols.length = 36 ∧ parse_manchester symbols 2850 2850 950 = 0 ∧
      parse_manchester symbols 2850 2850 950 ≠ 1 := by
  refine ⟨_, _, rfl, by decide, by decide, by decide⟩

/-- C1, amended: for the Airwell timings and every word `w`, `parse_manchester`
applied to the 36 symbols that `generate_manchester` produces with
`repeat = 1` returns `0`.  The parser reads durations only, and every data
symbol the encoder writes has two single-half-period durations, so the word
that comes back does not depend on `w`. -/
theorem parse_of_generated_is_zero (w : Nat) :
    ∃ symbols len, generate_manchester true 2850 2850 1 3800 950 w = some (symbols, len) ∧
      symbols.length = 36 ∧ len = 36 * sizeof_rmt_symbol_word_t ∧
      parse_manchester symbols 2850 2850 950 = 0 := by
  refine ⟨_, _, rfl, ?_, rfl, ?_⟩
  · simp [generate_frames, generate_bits_length]
  · show parse_manchester (⟨2850, 0, 2850, 1⟩ ::
      (generate_bits airwell_bit1 airwell_bit0 w 34 ++ [⟨3800, 0, 0x7FFF, 1⟩]))
      2850 2850 950 = 0
    have hhdr : parse_header_space ⟨2850, 0, 2850, 1⟩ 2850 950 = some (0, 0) := by decide
    have htail : parse_manchester_data 950 [⟨3800, 0, 0x7FFF, 1⟩] (0 + 34) ⟨0, 0, 0⟩ =
        (34, ⟨0, 0, 0⟩) := by decide
    have hmark : is_within_tolerance 2850 2850 = true := by decide
    simp only [parse_manchester, hmark, hhdr, parse_data_generate_bits, htail]
    decide

/-! ### `update_state` -/

/-- The first block of `update_state` as a record update. -/
theorem update_power_eq (e : Engine) (power : Int) :
    update_power e power =
      { e with
        current_state := { e.current_state with power := new_power e.current_state power }
        trace := e.trace ++
          (if (power ≠ -1 ∧ (e.current_state.power : Int) ≠ power) ∧
              e.on_power_changed_cb = true
            then [Effect.on_power_changed (decide (power ≠ 0))] else []) } := by
  unfold update_power invoke_cb new_power
  cases e
  split_ifs <;> simp_all

/-- The second block of `update_state` as a record update. -/
theorem update_temperature_eq (e : Engine) (temperature : Int) :
    update_temperature e temperature =
      { e with
        current_state :=
          { e.current_state with
            temperature := new_temperature e.current_state temperature }
        trace := e.trace ++
          (if (temperature ≠ -1 ∧ (e.current_state.temperature : Int) ≠ temperature) ∧
              e.on_temperature_changed_cb = true
            then [Effect.on_temperature_changed temperature] else []) } := by
  unfold update_temperature invoke_cb new_temperature
  cases e
  split_ifs <;> simp_all

/-- The third block of `update_state` as a record update. -/
theorem update_mode_eq (e : Engine) (mode : Int) :
    update_mode e mode =
      { e with
        current_state := { e.current_state with mode := new_mode e.current_state mode }
        trace := e.trace ++
          (if (mode ≠ -1 ∧ (e.current_state.mode : Int) ≠ mode) ∧ e.on_mode_changed_cb = true
            then [Effect.on_mode_changed mode] else []) } := by
  unfold update_mode invoke_cb new_mode
  cases e
  split_ifs <;> simp_all

/-- The fourth block of `update_state` as a record update. -/
theorem update_fan_eq (e : Engine) (fan : Int) :
    update_fan e fan =
      { e with
        current_state := { e.current_state with fan := new_fan e.current_state fan }
        trace := e.trace ++
          (if (fan ≠ -1 ∧ (e.current_state.fan : Int) ≠ fan) ∧ e.on_fan_changed_cb = true
            then [Effect.on_fan_changed fan] else []) } := by
  unfold update_fan invoke_cb new_fan
  cases e
  split_ifs <;> simp_all

/-- The whole of `update_state` as one record update. -/
theorem update_state_eq (e : Engine) (power temperature mode fan : Int) :
    update_state e power temperature mode fan =
      { e with
        current_state := updated e.current_state power temperature mode fan
        trace := e.trace ++ fired e power temperature mode fan ++
          [Effect.config_ac_persistent_save
            (updated e.current_state power temperature mode fan).data]
        nvs_ac_state :=
          if e.world.nvs_ok = true then
            some (updated e.current_state power temperature mode fan).data
          else e.nvs_ac_state } := by
  unfold update_state
  simp only [update_power_eq, update_temperature_eq, update_mode_eq, update_fan_eq,
    config_ac_persistent_save, fired, updated, new_power, new_temperature, new_mode, new_fan]
  cases hw : e.world.nvs_ok <;> simp [List.append_assoc]


/-- The log after `update_state`. -/
theorem update_state_trace (e : Engine) (power temperature mode fan : Int) :
    (update_state e power temperature mode fan).trace =
      e.trace ++ fired e power temperature mode fan ++
        [Effect.config_ac_persistent_save
          (updated e.current_state power temperature mode fan).data] := by
  rw [update_state_eq]

/-- The state after `update_state`. -/
theorem update_state_current_state (e : Engine) (power temperature mode fan : Int) :
    (update_state e power temperature mode fan).current_state =
      updated e.current_state power temperature mode fan := by
  rw [update_state_eq]

/-- The active profile is not touched by `update_state`. -/
theorem update_state_ac_ops (e : Engine) (power temperature mode fan : Int) :
    (update_state e power temperature mode fan).ac_ops = e.ac_ops := by
  rw [update_state_eq]

/-- The stored word after `update_state`. -/
theorem update_state_nvs (e : Engine) (power temperature mode fan : Int) :
    (update_state e power temperature mode fan).nvs_ac_state =
      if e.world.nvs_ok = true then
        some (updated e.current_state power temperature mode fan).data
      else e.nvs_ac_state := by
  rw [update_state_eq]

/-- C2: with the four callbacks registered, the callbacks that
`update_state(power, temperature, mode, fan)` fires are exactly the entries of
the list power, temperature, mode, fan whose argument is not `-1` and differs
from the field as it was before the call, in that order and each with the
argument as payload; nothing else precedes the closing persistence call.  An
argument that fits its bit-field is also the value of the field afterwards. -/
theorem update_state_notifications (e : Engine) (power temperature mode fan : Int)
    (hp : e.on_power_changed_cb = true) (ht : e.on_temperature_changed_cb = true)
    (hm : e.on_mode_changed_cb = true) (hf : e.on_fan_changed_cb = true) :
    (∃ data, (update_state e power temperature mode fan).trace =
      e.trace ++
        (([(differs power e.current_state.power,
              Effect.on_power_changed (decide (power ≠ 0))),
           (differs temperature e.current_state.temperature,
              Effect.on_temperature_changed temperature),
           (differs mode e.current_state.mode, Effect.on_mode_changed mode),
           (differs fan e.current_state.fan, Effect.on_fan_changed fan)].filter
            Prod.fst).map Prod.snd) ++
        [Effect.config_ac_persistent_save data]) ∧
    (differs power e.current_state.power = true → 0 ≤ power → power < 2 →
      ((update_state e power temperature mode fan).current_state.power : Int) = power) ∧
    (differs temperature e.current_state.temperature = true → 0 ≤ temperature →
      temperature < 128 →
      ((update_state e power temperature mode fan).current_state.temperature : Int) =
        temperature) ∧
    (differs mode e.current_state.mode = true → 0 ≤ mode → mode < 16 →
      ((update_state e power temperature mode fan).current_state.mode : Int) = mode) ∧
    (differs fan e.current_state.fan = true → 0 ≤ fan → fan < 16 →
      ((update_state e power temperature mode fan).current_state.fan : Int) = fan) := by
  rw [update_state_trace, update_state_current_state]
  refine ⟨⟨(updated e.current_state power temperature mode fan).data, ?_⟩, ?_, ?_, ?_, ?_⟩
  · simp only [fired, hp, ht, hm, hf, differs, and_true, List.append_assoc,
      List.append_cancel_left_eq]
    by_cases h1 : power ≠ -1 ∧ (e.current_state.power : Int) ≠ power <;>
    by_cases h2 : temperature ≠ -1 ∧ (e.current_state.temperature : Int) ≠ temperature <;>
    by_cases h3 : mode ≠ -1 ∧ (e.current_state.mode : Int) ≠ mode <;>
    by_cases h4 : fan ≠ -1 ∧ (e.current_state.fan : Int) ≠ fan <;>
    simp [h1, h2, h3, h4, List.filter]
  · intro hd h0 h2
    simp only [differs, decide_eq_true_eq] at hd
    simp only [updated, new_power]
    rw [if_pos hd]
    omega
  · intro hd h0 h2
    simp only [differs, decide_eq_true_eq] at hd
    simp only [updated, new_temperature]
    rw [if_pos hd]
    omega
  · intro hd h0 h2
    simp only [differs, decide_eq_true_eq] at hd
    simp only [updated, new_mode]
    rw [if_pos hd]
    omega
  · intro hd h0 h2
    simp only [differs, decide_eq_true_eq] at hd
    simp only [updated, new_fan]
    rw [if_pos hd]
    omega

/-- C2 at a concrete call: on the first-run engine (all fields `0`),
`update_state(1, 20, -1, 0)` fires the power and the temperature callbacks and
no other. -/
theorem update_state_notifications_witness :
    Engine.demo.on_power_changed_cb = true ∧
    ∃ data, (update_state Engine.demo 1 20 (-1) 0).trace =
      [Effect.on_power_changed true, Effect.on_temperature_changed 20,
        Effect.config_ac_persistent_save data] := by
  refine ⟨rfl, ?_⟩
  obtain ⟨data, h⟩ := (update_state_notifications Engine.demo 1 20 (-1) 0 rfl rfl rfl rfl).1
  exact ⟨data, by rw [h]; rfl⟩

/-- C3: every call of `update_state` makes exactly one persistence call; it is
the last thing the call does, only change callbacks come before it, and its
argument is the member `data` of the state the call leaves, whose bit 0 is the
untouched `detected_power`.  A successful write leaves that word in the
store. -/
theorem update_state_persists_once (e : Engine) (power temperature mode fan : Int) :
    (∃ notifications,
      (∀ n ∈ notifications, Effect.is_notification n = true) ∧
      (update_state e power temperature mode fan).trace =
        e.trace ++ notifications ++
          [Effect.config_ac_persistent_save
            (update_state e power temperature mode fan).current_state.data]) ∧
    ((update_state e power temperature mode fan).trace.filter Effect.is_persist).length =
      (e.trace.filter Effect.is_persist).length + 1 ∧
    (update_state e power temperature mode fan).current_state.detected_power =
      e.current_state.detected_power ∧
    (update_state e power temperature mode fan).current_state.data % 2 =
      e.current_state.detected_power % 2 ∧
    (e.world.nvs_ok = true →
      (update_state e power temperature mode fan).nvs_ac_state =
        some (update_state e power temperature mode fan).current_state.data) := by
  have hn : ∀ n ∈ fired e power temperature mode fan, Effect.is_notification n = true := by
    intro n hn
    simp only [fired, List.mem_append] at hn
    rcases hn with ((hn | hn) | hn) | hn <;> split_ifs at hn <;>
      simp_all [Effect.is_notification]
  have hnp : (fired e power temperature mode fan).filter Effect.is_persist = [] := by
    rw [List.filter_eq_nil_iff]
    intro n hmem
    have := hn n hmem
    cases n <;> simp_all [Effect.is_notification, Effect.is_persist]
  rw [update_state_trace, update_state_current_state, update_state_nvs]
  refine ⟨⟨_, hn, rfl⟩, ?_, rfl, ?_, ?_⟩
  · simp [List.filter_append, hnp, Effect.is_persist]
  · simp only [updated, current_state_t.data]
    omega
  · intro h
    simp [h]


/-- C3 on the first-run engine with no field given: one persistence call, of
the word `0`, which the store then holds. -/
theorem update_state_persists_once_witness :
    Engine.demo.world.nvs_ok = true ∧
    ((update_state Engine.demo (-1) (-1) (-1) (-1)).trace.filter Effect.is_persist).length =
      1 ∧
    (update_state Engine.demo (-1) (-1) (-1) (-1)).nvs_ac_state = some 0 := by
  obtain ⟨-, hcount, -, -, hnvs⟩ :=
    update_state_persists_once Engine.demo (-1) (-1) (-1) (-1)
  refine ⟨rfl, ?_, ?_⟩
  · rw [hcount]
    rfl
  · rw [hnvs rfl]
    rfl

/-! ### The validated setters -/

/-- The profile set up by `Engine.demo` is Airwell. -/
theorem demo_ac_ops : Engine.demo.ac_ops = some airwell := by decide

/-- C4: with the Airwell profile active, `ac_set_temperature(t)` for `t < 16`
or `t > 30` returns `-1` and leaves the engine as it was: the five state
fields, the log of callbacks, persistence calls and transmits, and the stored
word are all unchanged. -/
theorem ac_set_temperature_out_of_range (e : Engine) (t : Int)
    (h : e.ac_ops = some airwell) (ht : t < 16 ∨ t > 30) :
    ac_set_temperature e t = some (e, -1) := by
  simp only [ac_set_temperature, h, airwell]
  rw [if_pos ht]

/-- C4 at `t = 35` on the first-run engine. -/
theorem ac_set_temperature_out_of_range_witness :
    Engine.demo.ac_ops = some airwell ∧ ((35 : Int) < 16 ∨ (35 : Int) > 30) ∧
      ac_set_temperature Engine.demo 35 = some (Engine.demo, -1) :=
  ⟨demo_ac_ops, by decide,
    ac_set_temperature_out_of_range Engine.demo 35 demo_ac_ops (by decide)⟩

/-- C5: with the Airwell profile active, `ac_set_temperature(t)` always
returns `0` or `-1`, and `-1` exactly when `t` is outside `[16,30]`; for `t`
inside, the temperature becomes `t` and `power`, `detected_power`, `mode` and
`fan` keep their values. -/
theorem ac_set_temperature_in_range (e : Engine) (t : Int) (h : e.ac_ops = some airwell) :
    ∃ e1 r, ac_set_temperature e t = some (e1, r) ∧ (r = 0 ∨ r = -1) ∧
      (r = -1 ↔ (t < 16 ∨ t > 30)) ∧
      (16 ≤ t ∧ t ≤ 30 →
        r = 0 ∧ (e1.current_state.temperature : Int) = t ∧
        e1.current_state.power = e.current_state.power ∧
        e1.current_state.detected_power = e.current_state.detected_power ∧
        e1.current_state.mode = e.current_state.mode ∧
        e1.current_state.fan = e.current_state.fan) := by
  by_cases ht : t < 16 ∨ t > 30
  · refine ⟨e, -1, ac_set_temperature_out_of_range e t h ht, Or.inr rfl, ?_, ?_⟩
    · simp [ht]
    · intro hin
      omega
  · refine ⟨update_state e (-1) t (-1) (-1), 0, ?_, Or.inl rfl, ?_, ?_⟩
    · simp only [ac_set_temperature, h, airwell]
      rw [if_neg ht]
    · simp [ht]
    · intro hin
      rw [update_state_current_state]
      refine ⟨rfl, ?_, ?_, rfl, ?_, ?_⟩
      · simp only [updated, new_temperature]
        split_ifs <;> omega
      · simp [updated, new_power]
      · simp [updated, new_mode]
      · simp [updated, new_fan]

/-- C5 at `t = 20` on the first-run engine. -/
theorem ac_set_temperature_in_range_witness :
    Engine.demo.ac_ops = some airwell ∧
    ∃ e1, ac_set_temperature Engine.demo 20 = some (e1, 0) ∧
      e1.current_state.temperature = 20 := by
  refine ⟨demo_ac_ops, ?_⟩
  obtain ⟨e1, r, hcall, -, -, hin⟩ := ac_set_temperature_in_range Engine.demo 20 demo_ac_ops
  obtain ⟨hr, htemp, -⟩ := hin (by decide)
  subst hr
  exact ⟨e1, hcall, by exact_mod_cast htemp⟩

/-- The loop of `ac_set_mode` over the Airwell modes. -/
theorem ac_set_mode_loop_airwell (e : Engine) (m : Int) :
    ac_set_mode_loop e m airwell.supported_modes =
      if m = AC_MODE_COOL ∨ m = AC_MODE_HEAT ∨ m = AC_MODE_AUTO ∨ m = AC_MODE_DRY ∨
          m = AC_MODE_FAN then
        (update_state e (-1) (-1) m (-1), 0)
      else (e, -1) := by
  simp only [airwell, ac_set_mode_loop, AC_MODE_FAN, AC_MODE_COOL, AC_MODE_HEAT, AC_MODE_DRY, AC_MODE_AUTO, AC_FAN_LOW,
    AC_FAN_MEDIUM, AC_FAN_HIGH, AC_FAN_AUTO]
  split_ifs <;> first | rfl | contradiction | omega

/-- The loop of `ac_set_fan` over the Airwell fans. -/
theorem ac_set_fan_loop_airwell (e : Engine) (f : Int) :
    ac_set_fan_loop e f airwell.supported_fans =
      if f = AC_FAN_LOW ∨ f = AC_FAN_MEDIUM ∨ f = AC_FAN_HIGH ∨ f = AC_FAN_AUTO then
        (update_state e (-1) (-1) (-1) f, 0)
      else (e, -1) := by
  simp only [airwell, ac_set_fan_loop, AC_MODE_FAN, AC_MODE_COOL, AC_MODE_HEAT, AC_MODE_DRY, AC_MODE_AUTO, AC_FAN_LOW,
    AC_FAN_MEDIUM, AC_FAN_HIGH, AC_FAN_AUTO]
  split_ifs <;> first | rfl | contradiction | omega

/-- C6: with the Airwell profile active, `ac_set_mode(m)` returns `0` exactly
when `m` is one of COOL, HEAT, AUTO, DRY, FAN and `ac_set_fan(f)` returns `0`
exactly when `f` is one of LOW, MEDIUM, HIGH, AUTO.  On success the state
differs from the prior one in that field only, which holds the given value; on
failure the result is `-1` and the engine (state, log and stored word) is
unchanged, in particular for the value `-1`. -/
theorem ac_set_mode_fan_supported (e : Engine) (m f : Int) (h : e.ac_ops = some airwell) :
    (∃ e1 r, ac_set_mode e m = some (e1, r) ∧
      (r = 0 ↔ m ∈ [AC_MODE_COOL, AC_MODE_HEAT, AC_MODE_AUTO, AC_MODE_DRY, AC_MODE_FAN]) ∧
      (r = 0 → e1.current_state = { e.current_state with mode := m.toNat } ∧
        (e1.current_state.mode : Int) = m) ∧
      (r ≠ 0 → r = -1 ∧ e1 = e)) ∧
    (∃ e2 r, ac_set_fan e f = some (e2, r) ∧
      (r = 0 ↔ f ∈ [AC_FAN_LOW, AC_FAN_MEDIUM, AC_FAN_HIGH, AC_FAN_AUTO]) ∧
      (r = 0 → e2.current_state = { e.current_state with fan := f.toNat } ∧
        (e2.current_state.fan : Int) = f) ∧
      (r ≠ 0 → r = -1 ∧ e2 = e)) ∧
    ac_set_mode e (-1) = some (e, -1) ∧ ac_set_fan e (-1) = some (e, -1) := by
  refine ⟨?_, ?_, ?_, ?_⟩
  · simp only [ac_set_mode, h, ac_set_mode_loop_airwell]
    simp only [AC_MODE_FAN, AC_MODE_COOL, AC_MODE_HEAT, AC_MODE_DRY, AC_MODE_AUTO]
    by_cases hm : m = 1 ∨ m = 2 ∨ m = 4 ∨ m = 3 ∨ m = 0
    · rw [if_pos hm]
      refine ⟨_, _, rfl, ?_, ?_, ?_⟩
      · simpa using hm
      · intro _
        rw [update_state_current_state]
        have hnew : new_mode e.current_state m = m.toNat := by
          simp only [new_mode]
          split_ifs <;> omega
        refine ⟨?_, ?_⟩
        · simp [updated, new_power, new_temperature, new_fan, hnew]
        · simp only [updated, hnew]
          omega
      · intro hne
        exact absurd rfl hne
    · rw [if_neg hm]
      refine ⟨_, _, rfl, ?_, ?_, ?_⟩
      · simpa using hm
      · intro h0
        omega
      · intro _
        exact ⟨rfl, rfl⟩
  · simp only [ac_set_fan, h, ac_set_fan_loop_airwell]
    simp only [AC_FAN_LOW, AC_FAN_MEDIUM, AC_FAN_HIGH, AC_FAN_AUTO]
    by_cases hf : f = 0 ∨ f = 1 ∨ f = 2 ∨ f = 3
    · rw [if_pos hf]
      refine ⟨_, _, rfl, ?_, ?_, ?_⟩
      · simpa using hf
      · intro _
        rw [update_state_current_state]
        have hnew : new_fan e.current_state f = f.toNat := by
          simp only [new_fan]
          split_ifs <;> omega
        refine ⟨?_, ?_⟩
        · simp [updated, new_power, new_temperature, new_mode, hnew]
        · simp only [updated, hnew]
          omega
      · intro hne
        exact absurd rfl hne
    · rw [if_neg hf]
      refine ⟨_, _, rfl, ?_, ?_, ?_⟩
      · simpa using hf
      · intro h0
        omega
      · intro _
        exact ⟨rfl, rfl⟩
  · simp only [ac_set_mode, h, ac_set_mode_loop_airwell]
    rfl
  · simp only [ac_set_fan, h, ac_set_fan_loop_airwell]
    rfl

/-- C6 on the first-run engine: mode COOL is accepted and stored, and fan
`-1` is refused. -/
theorem ac_set_mode_fan_supported_witness :
    Engine.demo.ac_ops = some airwell ∧
    (∃ e1, ac_set_mode Engine.demo AC_MODE_COOL = some (e1, 0) ∧
      e1.current_state.mode = 1) ∧
    ac_set_fan Engine.demo (-1) = some (Engine.demo, -1) := by
  obtain ⟨⟨e1, r, hcall, hiff, hok, -⟩, -, -, hfan⟩ :=
    ac_set_mode_fan_supported Engine.demo AC_MODE_COOL (-1) demo_ac_ops
  have hr : r = 0 := hiff.mpr (by decide)
  subst hr
  refine ⟨demo_ac_ops, ⟨e1, hcall, ?_⟩, hfan⟩
  have := (hok rfl).2
  exact_mod_cast this


/-! ### `airwell_ir_send` and `ac_set_detected_power` -/

/-- With both `power` and `detected_power` off, `airwell_ir_send` does
nothing. -/
theorem airwell_ir_send_idle (e : Engine)
    (h : e.current_state.power = 0 ∧ e.current_state.detected_power = 0) :
    airwell_ir_send e = (e, 0) := by
  simp only [airwell_ir_send]
  rw [if_pos h]

/-- Otherwise, when the buffer is allocated, `airwell_ir_send` hands the three
frames of the word built from the state to `ir_send`. -/
theorem airwell_ir_send_transmits (e : Engine)
    (h : ¬(e.current_state.power = 0 ∧ e.current_state.detected_power = 0))
    (hm : e.world.malloc_ok = true) :
    ∃ symbols len,
      generate_manchester true 2850 2850 3 3800 950 (airwell_word e.current_state) =
        some (symbols, len) ∧
      airwell_ir_send e =
        ({ e with trace := e.trace ++ [Effect.ir_send symbols len] },
          e.world.rmt_transmit_ret) := by
  refine ⟨_, _, rfl, ?_⟩
  simp only [airwell_ir_send]
  rw [if_neg h, hm]
  rfl

/-- Otherwise, when the allocation fails, `airwell_ir_send` gives up. -/
theorem airwell_ir_send_no_memory (e : Engine)
    (h : ¬(e.current_state.power = 0 ∧ e.current_state.detected_power = 0))
    (hm : e.world.malloc_ok = false) :
    airwell_ir_send e = (e, -1) := by
  simp only [airwell_ir_send]
  rw [if_neg h, hm]
  rfl

/-- In every case `airwell_ir_send` leaves the engine as it was, except for
at most one transmit appended to the log. -/
theorem airwell_ir_send_frame (e : Engine) :
    ∃ tx, (airwell_ir_send e).1 = { e with trace := e.trace ++ tx } ∧
      (∀ ev ∈ tx, Effect.is_transmit ev = true) ∧ tx.length ≤ 1 := by
  by_cases h : e.current_state.power = 0 ∧ e.current_state.detected_power = 0
  · refine ⟨[], ?_, by simp, by simp⟩
    rw [airwell_ir_send_idle e h]
    simp
  · cases hm : e.world.malloc_ok
    · refine ⟨[], ?_, by simp, by simp⟩
      rw [airwell_ir_send_no_memory e h hm]
      simp
    · obtain ⟨symbols, len, -, hs⟩ := airwell_ir_send_transmits e h hm
      refine ⟨[Effect.ir_send symbols len], ?_, by simp [Effect.is_transmit], by simp⟩
      rw [hs]

/-- Bit 33 of the word built by `airwell_ir_send` is set exactly when
`detected_power` and `power` differ. -/
theorem airwell_word_toggle (s : current_state_t) :
    airwell_t.power_toggle (airwell_word s) = if s.detected_power ≠ s.power then 1 else 0 := by
  simp only [airwell_word, airwell_t.raw, airwell_t.power_toggle]
  have h1 : ((1 : Int) % 2).toNat = 1 := by decide
  have hb : (((s.temperature : Int) - 15) % 16).toNat < 16 := by omega
  have hc : ((mode_to_value airwell_fans s.fan) % 4).toNat < 4 := by omega
  have hd : ((mode_to_value airwell_modes s.mode) % 8).toNat < 8 := by omega
  generalize (((s.temperature : Int) - 15) % 16).toNat = b at hb
  generalize ((mode_to_value airwell_fans s.fan) % 4).toNat = c at hc
  generalize ((mode_to_value airwell_modes s.mode) % 8).toNat = d at hd
  split_ifs
  · norm_num
    omega
  · norm_num
    omega


/-- With the Airwell profile active, `ac_set_detected_power` is the store
followed, when the two power flags differ, by `airwell_ir_send`. -/
theorem ac_set_detected_power_eq (e : Engine) (level : Bool) (h : e.ac_ops = some airwell) :
    ac_set_detected_power e level =
      if (if level then 1 else 0) ≠ e.current_state.power then
        some (airwell_ir_send (store_detected_power e level)).1
      else some (store_detected_power e level) := by
  have hops : (store_detected_power e level).ac_ops = some airwell := h
  simp only [ac_set_detected_power, ac_ir_send, hops, airwell, Option.map_some']
  rfl

/-- C9: with the Airwell profile active and the symbol buffer allocated, for
every state and every `level` different from `power`,
`ac_set_detected_power(level)` stores `level` in `detected_power`, touches no
other field, and makes exactly one call of `ir_send`; the symbols sent are the
encoding of the word built from the new state, whose bit 33 (power toggle)
is `1`. -/
theorem ac_set_detected_power_transmits (e : Engine) (level : Bool)
    (h : e.ac_ops = some airwell) (hm : e.world.malloc_ok = true)
    (hne : (if level then 1 else 0) ≠ e.current_state.power) :
    ∃ e1 symbols len w,
      ac_set_detected_power e level = some e1 ∧
      e1.current_state =
        { e.current_state with detected_power := if level then 1 else 0 } ∧
      w = airwell_word e1.current_state ∧
      generate_manchester true 2850 2850 3 3800 950 w = some (symbols, len) ∧
      e1.trace = e.trace ++ [Effect.ir_send symbols len] ∧
      w.testBit 33 = true ∧ airwell_t.power_toggle w = 1 := by
  have hidle : ¬((store_detected_power e level).current_state.power = 0 ∧
      (store_detected_power e level).current_state.detected_power = 0) := by
    intro hc
    exact hne (hc.2.trans hc.1.symm)
  obtain ⟨symbols, len, hgen, hsend⟩ :=
    airwell_ir_send_transmits (store_detected_power e level) hidle hm
  have htog : airwell_t.power_toggle
      (airwell_word (store_detected_power e level).current_state) = 1 := by
    rw [airwell_word_toggle]
    exact if_pos hne
  refine ⟨(airwell_ir_send (store_detected_power e level)).1, symbols, len,
    airwell_word (store_detected_power e level).current_state, ?_, ?_, ?_, hgen, ?_, ?_,
    htog⟩
  · rw [ac_set_detected_power_eq e level h, if_pos hne]
  · rw [hsend]
    rfl
  · rw [hsend]
  · rw [hsend]
    rfl
  · simp only [airwell_t.power_toggle] at htog
    rw [Nat.testBit_to_div_mod]
    simpa using htog

/-- C9 at its scenario: `level = true` while `power = false`, on the
first-run engine. -/
theorem ac_set_detected_power_transmits_witness :
    Engine.demo.ac_ops = some airwell ∧ Engine.demo.world.malloc_ok = true ∧
    Engine.demo.current_state.power = 0 ∧
    ∃ e1 symbols len,
      ac_set_detected_power Engine.demo true = some e1 ∧
      e1.current_state.detected_power = 1 ∧
      e1.trace = Engine.demo.trace ++ [Effect.ir_send symbols len] := by
  obtain ⟨e1, symbols, len, w, hcall, hstate, -, -, htrace, -, -⟩ :=
    ac_set_detected_power_transmits Engine.demo true demo_ac_ops rfl (by decide)
  refine ⟨demo_ac_ops, rfl, rfl, e1, symbols, len, hcall, ?_, htrace⟩
  rw [hstate]
  rfl

/-- C10: with the Airwell profile active, `ac_set_detected_power(level)`
always returns, changes no field of the state other than `detected_power`,
leaves the stored word alone, and adds nothing to the log but transmits, of
which there is at most one: no callback fires and nothing is persisted.  With
the symbol buffer allocated, a transmit is made exactly when `level` differs
from `power`; when they are equal none is made whatever the world answers. -/
theorem ac_set_detected_power_frame (e : Engine) (level : Bool)
    (h : e.ac_ops = some airwell) :
    ∃ e1 tx,
      ac_set_detected_power e level = some e1 ∧
      e1.current_state =
        { e.current_state with detected_power := if level then 1 else 0 } ∧
      e1.nvs_ac_state = e.nvs_ac_state ∧
      e1.trace = e.trace ++ tx ∧
      (∀ ev ∈ tx, Effect.is_transmit ev = true ∧ Effect.is_notification ev = false ∧
        Effect.is_persist ev = false) ∧
      tx.length ≤ 1 ∧
      ((if level then 1 else 0) = e.current_state.power → tx = []) ∧
      (e.world.malloc_ok = true →
        (tx.length = 1 ↔ (if level then 1 else 0) ≠ e.current_state.power)) := by
  by_cases hne : (if level then 1 else 0) ≠ e.current_state.power
  · obtain ⟨tx, hfr, htx, hlen⟩ := airwell_ir_send_frame (store_detected_power e level)
    refine ⟨(airwell_ir_send (store_detected_power e level)).1, tx, ?_, ?_, ?_, ?_, ?_, hlen,
      ?_, ?_⟩
    · rw [ac_set_detected_power_eq e level h, if_pos hne]
    · rw [hfr]
      rfl
    · rw [hfr]
      rfl
    · rw [hfr]
      rfl
    · intro ev hev
      have := htx ev hev
      cases ev <;> simp_all [Effect.is_transmit, Effect.is_notification, Effect.is_persist]
    · intro heq
      exact absurd heq hne
    · intro hm
      have hidle : ¬((store_detected_power e level).current_state.power = 0 ∧
          (store_detected_power e level).current_state.detected_power = 0) := by
        intro hc
        exact hne (hc.2.trans hc.1.symm)
      obtain ⟨symbols, len, -, hsend⟩ :=
        airwell_ir_send_transmits (store_detected_power e level) hidle hm
      have ht : (store_detected_power e level).trace ++ tx =
          (store_detected_power e level).trace ++ [Effect.ir_send symbols len] := by
        have h1 := congrArg Engine.trace hfr
        rw [hsend] at h1
        exact h1.symm
      have := List.append_cancel_left ht
      subst this
      simp [hne]
  · have heq : (if level then 1 else 0) = e.current_state.power := by
      by_contra hc
      exact hne hc
    refine ⟨store_detected_power e level, [], ?_, rfl, rfl, ?_, ?_, by simp, ?_, ?_⟩
    · rw [ac_set_detected_power_eq e level h, if_neg hne]
    · simp [store_detected_power]
    · simp
    · intro _
      rfl
    · intro _
      simp [heq]

/-- C10 on the first-run engine with `level = false = power`: no transmit. -/
theorem ac_set_detected_power_frame_witness :
    Engine.demo.ac_ops = some airwell ∧
    ∃ e1, ac_set_detected_power Engine.demo false = some e1 ∧
      e1.trace = Engine.demo.trace ∧
      e1.current_state = Engine.demo.current_state := by
  obtain ⟨e1, tx, hcall, hstate, -, htrace, -, -, hnil, -⟩ :=
    ac_set_detected_power_frame Engine.demo false demo_ac_ops
  have htx : tx = [] := hnil (by decide)
  subst htx
  refine ⟨demo_ac_ops, e1, hcall, by simpa using htrace, ?_⟩
  rw [hstate]
  rfl


/-! ### Reachable states -/

/-- On success `ac_initialize("Airwell")` selects the Airwell profile and
loads the stored word into the state; nothing else changes. -/
theorem ac_initialize_airwell (e : Engine) :
    ac_initialize e "Airwell" =
      ({ e with
          ac_ops := some airwell
          current_state := current_state_t.of_data (config_ac_persistent_load e) }, 0) := by
  have hloop : ac_initialize_loop "Airwell" acs = some airwell := by decide
  simp only [ ac_initialize, hloop]
  rfl

/-- The Airwell mode table maps a 3-bit code to `-1` or to one of the five
modes. -/
theorem value_to_mode_airwell_modes (raw : Nat) :
    value_to_mode airwell_modes (airwell_t.mode raw) = -1 ∨
      (0 ≤ value_to_mode airwell_modes (airwell_t.mode raw) ∧
        value_to_mode airwell_modes (airwell_t.mode raw) ≤ 4) := by
  have hall : ∀ x : Nat, x < 8 → (value_to_mode airwell_modes (x : Int) = -1 ∨
      (0 ≤ value_to_mode airwell_modes (x : Int) ∧
        value_to_mode airwell_modes (x : Int) ≤ 4)) := by decide
  exact hall _ (Nat.mod_lt _ (by norm_num))

/-- The Airwell fan table maps a 2-bit code to one of the four fans. -/
theorem value_to_mode_airwell_fans (raw : Nat) :
    0 ≤ value_to_mode airwell_fans (airwell_t.fan raw) ∧
      value_to_mode airwell_fans (airwell_t.fan raw) ≤ 3 := by
  have hall : ∀ x : Nat, x < 4 → (0 ≤ value_to_mode airwell_fans (x : Int) ∧
      value_to_mode airwell_fans (x : Int) ≤ 3) := by decide
  exact hall _ (Nat.mod_lt _ (by norm_num))

/-- What one call can do to the state, with the Airwell profile active: the
call returns, the profile stays, and the state is either the old one up to
`detected_power`, or the result of `update_state` with a temperature argument
in `[15,30]`, a mode argument in `0..4` and a fan argument in `0..3` (each
possibly `-1`). -/
theorem step_shape (e : Engine) (c : Call) (h : e.ac_ops = some airwell) :
    ∃ e1, step e c = some e1 ∧ e1.ac_ops = some airwell ∧
      ((∃ b, e1.current_state = { e.current_state with detected_power := b }) ∨
        (∃ p t m f, e1.current_state = updated e.current_state p t m f ∧
          (t = -1 ∨ (15 ≤ t ∧ t ≤ 30)) ∧ (m = -1 ∨ (0 ≤ m ∧ m ≤ 4)) ∧
          (f = -1 ∨ (0 ≤ f ∧ f ≤ 3)))) := by
  have hsame : ∃ b, e.current_state = { e.current_state with detected_power := b } :=
    ⟨e.current_state.detected_power, rfl⟩
  cases c with
  | ac_set_power b =>
    refine ⟨_, rfl, ?_,
      Or.inr ⟨if b then 1 else 0, -1, -1, -1, ?_, Or.inl rfl, Or.inl rfl, Or.inl rfl⟩⟩
    · simp only [ac_set_power, update_state_ac_ops, h]
    · simp only [ac_set_power, update_state_current_state]
  | ac_set_temperature t =>
    by_cases ht : t < 16 ∨ t > 30
    · refine ⟨e, ?_, h, Or.inl hsame⟩
      simp only [step, ac_set_temperature, h, airwell]
      rw [if_pos ht]
      rfl
    · refine ⟨update_state e (-1) t (-1) (-1), ?_, ?_,
        Or.inr ⟨-1, t, -1, -1, ?_, Or.inr (by omega), Or.inl rfl, Or.inl rfl⟩⟩
      · simp only [step, ac_set_temperature, h, airwell]
        rw [if_neg ht]
        rfl
      · rw [update_state_ac_ops, h]
      · rw [update_state_current_state]
  | ac_set_mode m =>
    simp only [step, ac_set_mode, h, ac_set_mode_loop_airwell, Option.map_some']
    simp only [AC_MODE_FAN, AC_MODE_COOL, AC_MODE_HEAT, AC_MODE_DRY, AC_MODE_AUTO]
    by_cases hm : m = 1 ∨ m = 2 ∨ m = 4 ∨ m = 3 ∨ m = 0
    · rw [if_pos hm]
      refine ⟨_, rfl, ?_, Or.inr ⟨-1, -1, m, -1, ?_, Or.inl rfl, Or.inr (by omega), Or.inl rfl⟩⟩
      · rw [update_state_ac_ops, h]
      · rw [update_state_current_state]
    · rw [if_neg hm]
      exact ⟨e, rfl, h, Or.inl hsame⟩
  | ac_set_fan f =>
    simp only [step, ac_set_fan, h, ac_set_fan_loop_airwell, Option.map_some']
    simp only [AC_FAN_LOW, AC_FAN_MEDIUM, AC_FAN_HIGH, AC_FAN_AUTO]
    by_cases hf : f = 0 ∨ f = 1 ∨ f = 2 ∨ f = 3
    · rw [if_pos hf]
      refine ⟨_, rfl, ?_, Or.inr ⟨-1, -1, -1, f, ?_, Or.inl rfl, Or.inl rfl, Or.inr (by omega)⟩⟩
      · rw [update_state_ac_ops, h]
      · rw [update_state_current_state]
    · rw [if_neg hf]
      exact ⟨e, rfl, h, Or.inl hsame⟩
  | ac_set_detected_power b =>
    obtain ⟨tx, hfr, -, -⟩ := airwell_ir_send_frame (store_detected_power e b)
    simp only [step, ac_set_detected_power_eq e b h]
    by_cases hne : (if b then 1 else 0) ≠ e.current_state.power
    · rw [if_pos hne]
      refine ⟨_, rfl, ?_, Or.inl ⟨if b then 1 else 0, ?_⟩⟩
      · rw [hfr]
        exact h
      · rw [hfr]
        rfl
    · rw [if_neg hne]
      exact ⟨_, rfl, h, Or.inl ⟨if b then 1 else 0, rfl⟩⟩
  | ac_ir_recv symbols =>
    have hops : (match airwell.codec with
        | ac_codec_t.airwell => some (airwell_ir_recv e symbols)) =
        some (airwell_ir_recv e symbols) := rfl
    simp only [step, ac_ir_recv, h, hops, airwell_ir_recv, Option.map_some']
    by_cases h0 : parse_manchester symbols (3 * 950) (3 * 950) 950 = 0
    · rw [if_pos h0]
      exact ⟨e, rfl, h, Or.inl hsame⟩
    · rw [if_neg h0]
      refine ⟨_, rfl, ?_,
        Or.inr ⟨if airwell_t.power_toggle (parse_manchester symbols (3 * 950) (3 * 950) 950)
            ≠ 0 then (if e.current_state.power = 0 then 1 else 0) else -1,
          (airwell_t.temp (parse_manchester symbols (3 * 950) (3 * 950) 950) : Int) + 15,
          value_to_mode airwell_modes
            (airwell_t.mode (parse_manchester symbols (3 * 950) (3 * 950) 950)),
          value_to_mode airwell_fans
            (airwell_t.fan (parse_manchester symbols (3 * 950) (3 * 950) 950)),
          ?_, Or.inr ?_, ?_, Or.inr ?_⟩⟩
      · rw [update_state_ac_ops, h]
      · rw [update_state_current_state]
      · have : airwell_t.temp (parse_manchester symbols (3 * 950) (3 * 950) 950) < 16 :=
          Nat.mod_lt _ (by norm_num)
        omega
      · exact value_to_mode_airwell_modes _
      · exact value_to_mode_airwell_fans _

/-- A property of the state that every call preserves while the Airwell
profile is active holds after any sequence of calls, and the sequence runs to
its end. -/
theorem run_preserves (P : current_state_t → Prop)
    (hstep : ∀ e c e1, e.ac_ops = some airwell → P e.current_state → step e c = some e1 →
      P e1.current_state)
    (calls : List (World × Call)) :
    ∀ e : Engine, e.ac_ops = some airwell → P e.current_state →
      ∃ e1, run e calls = some e1 ∧ e1.ac_ops = some airwell ∧ P e1.current_state := by
  induction calls with
  | nil =>
    intro e h hP
    exact ⟨e, rfl, h, hP⟩
  | cons wc rest ih =>
    intro e h hP
    obtain ⟨w, c⟩ := wc
    obtain ⟨e1, hs, hops, -⟩ := step_shape { e with world := w } c h
    have hP1 : P e1.current_state := hstep { e with world := w } c e1 h hP hs
    obtain ⟨e2, hrun, hops2, hP2⟩ := ih e1 hops hP1
    refine ⟨e2, ?_, hops2, hP2⟩
    simp only [run, hs]
    exact hrun


/-- C7, as stated, fails: right after a successful `ac_initialize("Airwell")`
on a first run the temperature is `0`, and after the reception
`frame_nibble_zero` (decoded word `2`, temperature nibble `0`) it is `15`;
both are outside `[16,30]`. -/
theorem temperature_bounds_fail :
    ( ac_initialize (Engine.boot none World.good) "Airwell").2 = 0 ∧
    (run ( ac_initialize (Engine.boot none World.good) "Airwell").1 []).map
      (fun e => e.current_state.temperature) = some 0 ∧
    parse_manchester frame_nibble_zero 2850 2850 950 = 2 ∧
    (run ( ac_initialize (Engine.boot none World.good) "Airwell").1
      [(World.good, Call.ac_ir_recv frame_nibble_zero)]).map
      (fun e => e.current_state.temperature) = some 15 ∧
    ¬(16 ≤ 0 ∧ 0 ≤ 30) ∧ ¬(16 ≤ 15 ∧ 15 ≤ 30) := by
  refine ⟨by decide, by decide, by decide, by decide, by decide, by decide⟩

/-- C7, amended: in every state reached from a successful
`ac_initialize("Airwell")` on an all-zero persisted word by any sequence of
`ac_set_power`, `ac_set_temperature`, `ac_set_mode`, `ac_set_fan`,
`ac_set_detected_power` and `ac_ir_recv` calls (each in any world), the
temperature is `0` or lies within `[15,30]`; every such sequence runs to its
end. -/
theorem temperature_reachable (e0 : Engine) (calls : List (World × Call))
    (hload : config_ac_persistent_load e0 = 0) :
    ∃ e1 e, ac_initialize e0 "Airwell" = (e1, 0) ∧ run e1 calls = some e ∧
      (e.current_state.temperature = 0 ∨
        (15 ≤ e.current_state.temperature ∧ e.current_state.temperature ≤ 30)) := by
  have hstep : ∀ e c e1, e.ac_ops = some airwell →
      (e.current_state.temperature = 0 ∨
        (15 ≤ e.current_state.temperature ∧ e.current_state.temperature ≤ 30)) →
      step e c = some e1 →
      (e1.current_state.temperature = 0 ∨
        (15 ≤ e1.current_state.temperature ∧ e1.current_state.temperature ≤ 30)) := by
    intro e c e1 h hP hs
    obtain ⟨e2, hs2, -, hshape⟩ := step_shape e c h
    rw [hs] at hs2
    cases Option.some.inj hs2
    rcases hshape with ⟨b, hb⟩ | ⟨p, t, m, f, hu, ht, -, -⟩
    · rw [hb]
      exact hP
    · rw [hu]
      simp only [updated, new_temperature]
      split_ifs <;> omega
  have h0 : (current_state_t.of_data (config_ac_persistent_load e0)).temperature = 0 := by
    rw [hload]
    rfl
  obtain ⟨e, hrun, -, hP⟩ := run_preserves
    (fun s => s.temperature = 0 ∨ (15 ≤ s.temperature ∧ s.temperature ≤ 30)) hstep calls
    { e0 with
      ac_ops := some airwell
      current_state := current_state_t.of_data (config_ac_persistent_load e0) }
    rfl (Or.inl h0)
  exact ⟨_, e, ac_initialize_airwell e0, hrun, hP⟩

/-- C7 amended, on a first run followed by a command and a reception. -/
theorem temperature_reachable_witness :
    config_ac_persistent_load (Engine.boot none World.good) = 0 ∧
    ∃ e, run ( ac_initialize (Engine.boot none World.good) "Airwell").1
        [(World.good, Call.ac_set_temperature 20),
         (World.good, Call.ac_ir_recv frame_nibble_zero)] = some e ∧
      (e.current_state.temperature = 0 ∨
        (15 ≤ e.current_state.temperature ∧ e.current_state.temperature ≤ 30)) := by
  obtain ⟨e1, e, hinit, hrun, hP⟩ := temperature_reachable (Engine.boot none World.good)
    [(World.good, Call.ac_set_temperature 20),
     (World.good, Call.ac_ir_recv frame_nibble_zero)] rfl
  refine ⟨rfl, e, ?_, hP⟩
  rw [hinit]
  exact hrun

/-- C8: in every state reached from a successful `ac_initialize("Airwell")`
on an all-zero persisted word by any sequence of `ac_set_power`,
`ac_set_temperature`, `ac_set_mode`, `ac_set_fan`, `ac_set_detected_power` and
`ac_ir_recv` calls (each in any world), the mode is one of COOL, HEAT, AUTO,
DRY, FAN and the fan is one of LOW, MEDIUM, HIGH, AUTO, which are the entries
of the profile's two arrays; every such sequence runs to its end. -/
theorem mode_fan_reachable (e0 : Engine) (calls : List (World × Call))
    (hload : config_ac_persistent_load e0 = 0) :
    ∃ e1 e, ac_initialize e0 "Airwell" = (e1, 0) ∧ run e1 calls = some e ∧
      (e.current_state.mode : Int) ∈
        [AC_MODE_COOL, AC_MODE_HEAT, AC_MODE_AUTO, AC_MODE_DRY, AC_MODE_FAN] ∧
      (e.current_state.fan : Int) ∈ [AC_FAN_LOW, AC_FAN_MEDIUM, AC_FAN_HIGH, AC_FAN_AUTO] ∧
      (e.current_state.mode : Int) ∈ airwell.supported_modes ∧
      (e.current_state.fan : Int) ∈ airwell.supported_fans := by
  have hstep : ∀ e c e1, e.ac_ops = some airwell →
      (e.current_state.mode ≤ 4 ∧ e.current_state.fan ≤ 3) →
      step e c = some e1 →
      (e1.current_state.mode ≤ 4 ∧ e1.current_state.fan ≤ 3) := by
    intro e c e1 h hP hs
    obtain ⟨e2, hs2, -, hshape⟩ := step_shape e c h
    rw [hs] at hs2
    cases Option.some.inj hs2
    rcases hshape with ⟨b, hb⟩ | ⟨p, t, m, f, hu, -, hm, hf⟩
    · rw [hb]
      exact hP
    · rw [hu]
      simp only [updated, new_mode, new_fan]
      constructor
      · split_ifs <;> omega
      · split_ifs <;> omega
  have h0 : (current_state_t.of_data (config_ac_persistent_load e0)).mode ≤ 4 ∧
      (current_state_t.of_data (config_ac_persistent_load e0)).fan ≤ 3 := by
    rw [hload]
    exact ⟨by decide, by decide⟩
  obtain ⟨e, hrun, -, hm, hf⟩ := run_preserves
    (fun s => s.mode ≤ 4 ∧ s.fan ≤ 3) hstep calls
    { e0 with
      ac_ops := some airwell
      current_state := current_state_t.of_data (config_ac_persistent_load e0) }
    rfl h0
  refine ⟨_, e, ac_initialize_airwell e0, hrun, ?_, ?_, ?_, ?_⟩
  · simp only [AC_MODE_FAN, AC_MODE_COOL, AC_MODE_HEAT, AC_MODE_DRY, AC_MODE_AUTO,
      List.mem_cons, List.mem_singleton]
    omega
  · simp only [AC_FAN_LOW, AC_FAN_MEDIUM, AC_FAN_HIGH, AC_FAN_AUTO, List.mem_cons,
      List.mem_singleton]
    omega
  · simp only [airwell, AC_MODE_FAN, AC_MODE_COOL, AC_MODE_HEAT, AC_MODE_DRY, AC_MODE_AUTO,
      List.mem_cons, List.mem_singleton]
    omega
  · simp only [airwell, AC_FAN_LOW, AC_FAN_MEDIUM, AC_FAN_HIGH, AC_FAN_AUTO, List.mem_cons,
      List.mem_singleton]
    omega

/-- C8 on a first run followed by a refused mode, an accepted fan and a
reception. -/
theorem mode_fan_reachable_witness :
    config_ac_persistent_load (Engine.boot none World.good) = 0 ∧
    ∃ e, run ( ac_initialize (Engine.boot none World.good) "Airwell").1
        [(World.good, Call.ac_set_mode 9), (World.good, Call.ac_set_fan AC_FAN_HIGH),
         (World.good, Call.ac_ir_recv frame_nibble_zero)] = some e ∧
      (e.current_state.mode : Int) ∈
        [AC_MODE_COOL, AC_MODE_HEAT, AC_MODE_AUTO, AC_MODE_DRY, AC_MODE_FAN] ∧
      (e.current_state.fan : Int) ∈ [AC_FAN_LOW, AC_FAN_MEDIUM, AC_FAN_HIGH, AC_FAN_AUTO] := by
  obtain ⟨e1, e, hinit, hrun, hm, hf, -, -⟩ := mode_fan_reachable (Engine.boot none World.good)
    [(World.good, Call.ac_set_mode 9), (World.good, Call.ac_set_fan AC_FAN_HIGH),
     (World.good, Call.ac_ir_recv frame_nibble_zero)] rfl
  refine ⟨rfl, e, ?_, hm, hf⟩
  rw [hinit]
  exact hrun

/-! ### `ac_ir_send` and `ac_ir_recv` through the Airwell profile -/

/-- With the Airwell profile active `ac_ir_send` is `airwell_ir_send`. -/
theorem ac_ir_send_eq (e : Engine) (h : e.ac_ops = some airwell) :
    ac_ir_send e = some (airwell_ir_send e) := by
  simp only [ac_ir_send, h, airwell]

/-- With the Airwell profile active `ac_ir_recv` is `airwell_ir_recv`. -/
theorem ac_ir_recv_eq (e : Engine) (symbols : List rmt_symbol_word_t)
    (h : e.ac_ops = some airwell) :
    ac_ir_recv e symbols = some (airwell_ir_recv e symbols) := by
  simp only [ac_ir_recv, h, airwell]

/-- The profile of `Engine.demo_on` is Airwell. -/
theorem demo_on_ac_ops : Engine.demo_on.ac_ops = some airwell := by
  simp only [Engine.demo_on, ac_set_power, update_state_ac_ops]
  exact demo_ac_ops

/-- C11: with the Airwell profile active, in every state with `power` and
`detected_power` both off `ac_ir_send` returns `0` and leaves the engine as it
was (no transmit, state unchanged); in every other state, the symbol buffer
being allocated, it makes exactly one call of `ir_send`, with the encoding of
the word built from the state, changes nothing else and returns what the
transmitter returns. -/
theorem ac_ir_send_idle_or_once (e : Engine) (h : e.ac_ops = some airwell) :
    (e.current_state.power = 0 ∧ e.current_state.detected_power = 0 →
      ac_ir_send e = some (e, 0)) ∧
    (¬(e.current_state.power = 0 ∧ e.current_state.detected_power = 0) →
      e.world.malloc_ok = true →
      ∃ symbols len,
        generate_manchester true 2850 2850 3 3800 950 (airwell_word e.current_state) =
          some (symbols, len) ∧
        ac_ir_send e =
          some ({ e with trace := e.trace ++ [Effect.ir_send symbols len] },
            e.world.rmt_transmit_ret)) := by
  refine ⟨?_, ?_⟩
  · intro hidle
    rw [ac_ir_send_eq e h, airwell_ir_send_idle e hidle]
  · intro hbusy hm
    obtain ⟨symbols, len, hgen, hsend⟩ := airwell_ir_send_transmits e hbusy hm
    exact ⟨symbols, len, hgen, by rw [ac_ir_send_eq e h, hsend]⟩

/-- C11 on the first-run engine (both flags off: nothing is sent) and on the
same engine with `power` on (one transmit). -/
theorem ac_ir_send_idle_or_once_witness :
    Engine.demo.ac_ops = some airwell ∧
    ac_ir_send Engine.demo = some (Engine.demo, 0) ∧
    Engine.demo_on.current_state.power = 1 ∧
    ∃ symbols len, ac_ir_send Engine.demo_on =
      some ({ Engine.demo_on with
        trace := Engine.demo_on.trace ++ [Effect.ir_send symbols len] }, 0) := by
  refine ⟨demo_ac_ops, (ac_ir_send_idle_or_once Engine.demo demo_ac_ops).1 (by decide),
    by decide, ?_⟩
  obtain ⟨symbols, len, -, hsend⟩ :=
    (ac_ir_send_idle_or_once Engine.demo_on demo_on_ac_ops).2 (by decide) (by decide)
  exact ⟨symbols, len, hsend⟩

/-- The result of `airwell_ir_recv` on a reception whose word is not `0`. -/
theorem airwell_ir_recv_decoded (e : Engine) (symbols : List rmt_symbol_word_t)
    (hw : parse_manchester symbols (3 * 950) (3 * 950) 950 ≠ 0) :
    airwell_ir_recv e symbols =
      (update_state e
        (if airwell_t.power_toggle (parse_manchester symbols (3 * 950) (3 * 950) 950) ≠ 0
          then (if e.current_state.power = 0 then 1 else 0) else -1)
        ((airwell_t.temp (parse_manchester symbols (3 * 950) (3 * 950) 950) : Int) + 15)
        (value_to_mode airwell_modes
          (airwell_t.mode (parse_manchester symbols (3 * 950) (3 * 950) 950)))
        (value_to_mode airwell_fans
          (airwell_t.fan (parse_manchester symbols (3 * 950) (3 * 950) 950))), 0) := by
  simp only [airwell_ir_recv]
  rw [if_neg hw]

/-- The result of `airwell_ir_recv` on a reception without a value. -/
theorem airwell_ir_recv_no_value (e : Engine) (symbols : List rmt_symbol_word_t)
    (hw : parse_manchester symbols (3 * 950) (3 * 950) 950 = 0) :
    airwell_ir_recv e symbols = (e, -1) := by
  simp only [airwell_ir_recv]
  rw [if_pos hw]

/-- The power argument that `airwell_ir_recv` passes is always stored. -/
theorem new_power_toggle (s : current_state_t) :
    new_power s (if s.power = 0 then 1 else 0) = if s.power = 0 then 1 else 0 := by
  simp only [new_power]
  by_cases h0 : s.power = 0
  · simp [h0]
  · have h1 : (s.power : Int) ≠ 0 := by omega
    simp [h0, h1]

/-- A call of `update_state` adds one persistence call to the log. -/
theorem update_state_persist_count (e : Engine) (power temperature mode fan : Int) :
    ((update_state e power temperature mode fan).trace.filter Effect.is_persist).length =
      (e.trace.filter Effect.is_persist).length + 1 := by
  have hnp : (fired e power temperature mode fan).filter Effect.is_persist = [] := by
    rw [List.filter_eq_nil_iff]
    intro n hn
    simp only [fired, List.mem_append] at hn
    rcases hn with ((hn | hn) | hn) | hn <;> split_ifs at hn <;>
      simp_all [Effect.is_persist]
  rw [update_state_trace]
  simp [List.filter_append, hnp, Effect.is_persist]

/-- The power argument of `airwell_ir_recv`, once stored: negated when bit 33
of the word is set, untouched otherwise. -/
theorem new_power_of_word (s : current_state_t) (w : Nat) :
    new_power s
        (if airwell_t.power_toggle w ≠ 0 then (if s.power = 0 then 1 else 0) else -1) =
      if w.testBit 33 then (if s.power = 0 then 1 else 0) else s.power := by
  simp only [airwell_t.power_toggle, Nat.testBit_to_div_mod]
  by_cases hb : w / 2 ^ 33 % 2 = 1
  · have hb0 : w / 2 ^ 33 % 2 ≠ 0 := by omega
    simp only [hb, hb0, ne_eq, not_false_eq_true, if_true, decide_True]
    exact new_power_toggle s
  · have hb0 : w / 8589934592 % 2 = 0 := by omega
    simp [hb0, new_power]

/-- The temperature argument of `airwell_ir_recv`, once stored. -/
theorem new_temperature_of_word (s : current_state_t) (w : Nat) :
    new_temperature s ((airwell_t.temp w : Int) + 15) = w / 2 ^ 19 % 16 + 15 := by
  have htemp : airwell_t.temp w < 16 := Nat.mod_lt _ (by norm_num)
  simp only [new_temperature, airwell_t.temp] at htemp ⊢
  split_ifs <;> omega

/-- A mode argument that is `-1` or a mode, once stored. -/
theorem new_mode_of_code (s : current_state_t) (m : Int)
    (hm : m = -1 ∨ (0 ≤ m ∧ m ≤ 4)) :
    (m ≠ -1 → (new_mode s m : Int) = m) ∧ (m = -1 → new_mode s m = s.mode) := by
  refine ⟨?_, ?_⟩
  · intro hne
    simp only [new_mode]
    split_ifs <;> omega
  · intro heq
    simp [new_mode, heq]

/-- A fan argument that is a fan, once stored. -/
theorem new_fan_of_code (s : current_state_t) (f : Int) (hf : 0 ≤ f ∧ f ≤ 3) :
    (new_fan s f : Int) = f := by
  simp only [new_fan]
  split_ifs <;> omega

/-- C12: with the Airwell profile active, for every prior state and every
reception that `parse_manchester` (Airwell timings) decodes to a word `w`
other than `0`, `ac_ir_recv` returns `0` and leaves: `power` negated when bit
33 of `w` is set and as it was otherwise; `temperature` equal to bits 19..22 of
`w` plus 15; `mode` equal to the entry of `airwell_modes` for bits 30..32 when
there is one (and as it was when there is none); `fan` equal to the entry of
`airwell_fans` for bits 28..29; `detected_power` as it was; and exactly one
more persistence call in the log. -/
theorem ac_ir_recv_decoded (e : Engine) (symbols : List rmt_symbol_word_t)
    (h : e.ac_ops = some airwell)
    (hw : parse_manchester symbols 2850 2850 950 ≠ 0) :
    ∃ e1, ac_ir_recv e symbols = some (e1, 0) ∧
      e1.current_state.power =
        (if (parse_manchester symbols 2850 2850 950).testBit 33 then
          (if e.current_state.power = 0 then 1 else 0) else e.current_state.power) ∧
      e1.current_state.temperature =
        parse_manchester symbols 2850 2850 950 / 2 ^ 19 % 16 + 15 ∧
      (value_to_mode airwell_modes
          ((parse_manchester symbols 2850 2850 950 / 2 ^ 30 % 8 : Nat) : Int) ≠ -1 →
        (e1.current_state.mode : Int) = value_to_mode airwell_modes
          ((parse_manchester symbols 2850 2850 950 / 2 ^ 30 % 8 : Nat) : Int)) ∧
      (value_to_mode airwell_modes
          ((parse_manchester symbols 2850 2850 950 / 2 ^ 30 % 8 : Nat) : Int) = -1 →
        e1.current_state.mode = e.current_state.mode) ∧
      (e1.current_state.fan : Int) = value_to_mode airwell_fans
        ((parse_manchester symbols 2850 2850 950 / 2 ^ 28 % 4 : Nat) : Int) ∧
      e1.current_state.detected_power = e.current_state.detected_power ∧
      (e1.trace.filter Effect.is_persist).length =
        (e.trace.filter Effect.is_persist).length + 1 := by
  have hw2 : parse_manchester symbols (3 * 950) (3 * 950) 950 ≠ 0 := hw
  generalize hwdef : parse_manchester symbols 2850 2850 950 = w at hw ⊢
  have hwdef2 : parse_manchester symbols (3 * 950) (3 * 950) 950 = w := hwdef
  refine ⟨_, by rw [ac_ir_recv_eq e symbols h, airwell_ir_recv_decoded e symbols hw2], ?_⟩
  rw [hwdef2, update_state_current_state, update_state_persist_count]
  have hmode := value_to_mode_airwell_modes w
  have hfan := value_to_mode_airwell_fans w
  have hm2 := new_mode_of_code e.current_state _ hmode
  exact ⟨new_power_of_word e.current_state w, new_temperature_of_word e.current_state w,
    hm2.1, hm2.2, new_fan_of_code e.current_state _ hfan, rfl, rfl⟩

/-- C12 at its scenario: on the first-run engine (`power` and `detected_power`
off) the reception `frame_cool_auto_20` decodes to `0x270280002` and leaves
`power` on, temperature `20`, mode COOL and fan AUTO. -/
theorem ac_ir_recv_decoded_witness :
    Engine.demo.ac_ops = some airwell ∧
    parse_manchester frame_cool_auto_20 2850 2850 950 = 0x270280002 ∧
    ∃ e1, ac_ir_recv Engine.demo frame_cool_auto_20 = some (e1, 0) ∧
      e1.current_state.power = 1 ∧ e1.current_state.temperature = 20 ∧
      (e1.current_state.mode : Int) = AC_MODE_COOL ∧
      (e1.current_state.fan : Int) = AC_FAN_AUTO ∧
      e1.current_state.detected_power = 0 := by
  have hval : parse_manchester frame_cool_auto_20 2850 2850 950 = 0x270280002 := by decide
  obtain ⟨e1, hcall, hp, ht, hm, -, hf, hd, -⟩ :=
    ac_ir_recv_decoded Engine.demo frame_cool_auto_20 demo_ac_ops (by rw [hval]; decide)
  rw [hval] at hp ht hm hf
  refine ⟨demo_ac_ops, hval, e1, hcall, ?_, ?_, ?_, ?_, ?_⟩
  · rw [hp]
    decide
  · rw [ht]
    norm_num
  · rw [hm (by decide)]
    decide
  · rw [hf]
    decide
  · rw [hd]
    rfl

/-- C13: with the Airwell profile active, for every state and every reception
on which `parse_manchester` (Airwell timings) returns `0`, in particular one
whose first low duration is not within tolerance of the header mark,
`ac_ir_recv` returns `-1` and the engine is as it was: the five state fields,
the log (no callback, no persistence call) and the stored word. -/
theorem ac_ir_recv_no_value (e : Engine) (h : e.ac_ops = some airwell) :
    (∀ symbols, parse_manchester symbols 2850 2850 950 = 0 →
      ac_ir_recv e symbols = some (e, -1)) ∧
    (∀ hdr rest, is_within_tolerance hdr.duration0 2850 = false →
      ac_ir_recv e (hdr :: rest) = some (e, -1)) := by
  have hmain : ∀ symbols, parse_manchester symbols 2850 2850 950 = 0 →
      ac_ir_recv e symbols = some (e, -1) := by
    intro symbols h0
    rw [ac_ir_recv_eq e symbols h, airwell_ir_recv_no_value e symbols h0]
  refine ⟨hmain, ?_⟩
  intro hdr rest hmark
  apply hmain
  simp [parse_manchester, hmark]

/-- C13 on the first-run engine, for a reception whose header mark lasts
`1000` instead of `2850`. -/
theorem ac_ir_recv_no_value_witness :
    Engine.demo.ac_ops = some airwell ∧
    is_within_tolerance 1000 2850 = false ∧
    ac_ir_recv Engine.demo
      [⟨1000, 0, 2850, 1⟩, ⟨950, 0, 950, 1⟩, ⟨950, 0, 1900, 1⟩, ⟨950, 0, 950, 1⟩,
       ⟨3800, 0, 32767, 1⟩] = some (Engine.demo, -1) :=
  ⟨demo_ac_ops, by decide,
    (ac_ir_recv_no_value Engine.demo demo_ac_ops).2 ⟨1000, 0, 2850, 1⟩ _ (by decide)⟩

/-- C14, as stated, fails: on the first-run engine the reception
`frame_mode_seven` decodes to `0x3e0280002`, whose mode code `7` has no entry
in `airwell_modes`; `ac_ir_recv` returns `0` and, while the mode stays `0`,
`power` goes from `0` to `1`, the temperature from `0` to `20` and the fan
from `0` to `2`. -/
theorem unmapped_mode_still_updates :
    parse_manchester frame_mode_seven 2850 2850 950 = 0x3e0280002 ∧
    value_to_mode airwell_modes ((0x3e0280002 / 2 ^ 30 % 8 : Nat) : Int) = -1 ∧
    Engine.demo.current_state = ⟨0, 0, 0, 0, 0, 0⟩ ∧
    (ac_ir_recv Engine.demo frame_mode_seven).map
      (fun r => (r.2, r.1.current_state)) = some (0, ⟨0, 1, 20, 2, 0, 0⟩) := by
  refine ⟨by decide, by decide, by decide, by decide⟩

/-- C14, amended: with the Airwell profile active, for every state and every
reception decoded to a word other than `0` whose mode code (bits 30..32) has
no entry in `airwell_modes`, which is the case exactly for the codes `0`, `6`
and `7`, `ac_ir_recv` returns `0` and leaves `mode` and `detected_power` at
their prior values, while `power`, `temperature` and `fan` are set from the
word as for any other reception.  Each fan code `0..3` has an entry in
`airwell_fans`. -/
theorem ac_ir_recv_unmapped_mode (e : Engine) (symbols : List rmt_symbol_word_t)
    (h : e.ac_ops = some airwell)
    (hw : parse_manchester symbols 2850 2850 950 ≠ 0)
    (hun : value_to_mode airwell_modes
      ((parse_manchester symbols 2850 2850 950 / 2 ^ 30 % 8 : Nat) : Int) = -1) :
    (∃ e1, ac_ir_recv e symbols = some (e1, 0) ∧
      e1.current_state.mode = e.current_state.mode ∧
      e1.current_state.detected_power = e.current_state.detected_power ∧
      e1.current_state.power =
        (if (parse_manchester symbols 2850 2850 950).testBit 33 then
          (if e.current_state.power = 0 then 1 else 0) else e.current_state.power) ∧
      e1.current_state.temperature =
        parse_manchester symbols 2850 2850 950 / 2 ^ 19 % 16 + 15 ∧
      (e1.current_state.fan : Int) = value_to_mode airwell_fans
        ((parse_manchester symbols 2850 2850 950 / 2 ^ 28 % 4 : Nat) : Int)) ∧
    (∀ c : Nat, c < 8 → (value_to_mode airwell_modes (c : Int) = -1 ↔ c = 0 ∨ c = 6 ∨ c = 7)) ∧
    (∀ c : Nat, c < 4 → value_to_mode airwell_fans (c : Int) ≠ -1) := by
  have hw2 : parse_manchester symbols (3 * 950) (3 * 950) 950 ≠ 0 := hw
  generalize hwdef : parse_manchester symbols 2850 2850 950 = w at hw hun ⊢
  have hwdef2 : parse_manchester symbols (3 * 950) (3 * 950) 950 = w := hwdef
  refine ⟨⟨_, by rw [ac_ir_recv_eq e symbols h, airwell_ir_recv_decoded e symbols hw2], ?_⟩,
    by decide, by decide⟩
  rw [hwdef2, update_state_current_state]
  have hfan := value_to_mode_airwell_fans w
  have hm2 := new_mode_of_code e.current_state
    (value_to_mode airwell_modes (airwell_t.mode w)) (Or.inl hun)
  exact ⟨hm2.2 hun, rfl, new_power_of_word e.current_state w,
    new_temperature_of_word e.current_state w, new_fan_of_code e.current_state _ hfan⟩

/-- C14 amended, on the first-run engine and the reception
`frame_mode_seven`: the mode stays `0`. -/
theorem ac_ir_recv_unmapped_mode_witness :
    Engine.demo.ac_ops = some airwell ∧
    parse_manchester frame_mode_seven 2850 2850 950 = 0x3e0280002 ∧
    ∃ e1, ac_ir_recv Engine.demo frame_mode_seven = some (e1, 0) ∧
      e1.current_state.mode = 0 ∧ e1.current_state.temperature = 20 := by
  have hval : parse_manchester frame_mode_seven 2850 2850 950 = 0x3e0280002 := by decide
  obtain ⟨⟨e1, hcall, hm, -, -, ht, -⟩, -, -⟩ :=
    ac_ir_recv_unmapped_mode Engine.demo frame_mode_seven demo_ac_ops
      (by rw [hval]; decide) (by rw [hval]; decide)
  rw [hval] at ht
  refine ⟨demo_ac_ops, hval, e1, hcall, ?_, ?_⟩
  · rw [hm]
    rfl
  · rw [ht]
    norm_num

/-! ### Header and body validation in `parse_manchester` -/

/-- The band of `is_within_tolerance` for an `expected` whose upper limit fits
16 bits. -/
theorem is_within_tolerance_iff (value expected : Nat) (hfit : 5 * expected / 4 ≤ 65535) :
    is_within_tolerance value expected = true ↔
      3 * expected / 4 ≤ value ∧ value ≤ 5 * expected / 4 := by
  have h1 : expected * (100 - 25) / 100 = 3 * expected / 4 := by omega
  have h2 : expected * (100 + 25) / 100 = 5 * expected / 4 := by omega
  have h3 : 3 * expected / 4 < 65536 := by omega
  have h4 : 5 * expected / 4 < 65536 := by omega
  simp only [is_within_tolerance, TIMING_TOLERANCE_PERCENT, decide_eq_true_eq, h1, h2,
    Nat.mod_eq_of_lt h3, Nat.mod_eq_of_lt h4]

/-- A rejected header mark makes `parse_manchester` return `0`. -/
theorem parse_manchester_bad_mark (hdr : rmt_symbol_word_t)
    (rest : List rmt_symbol_word_t) (header_mark header_space half_period : Nat)
    (hmark : is_within_tolerance hdr.duration0 header_mark = false) :
    parse_manchester (hdr :: rest) header_mark header_space half_period = 0 := by
  simp [parse_manchester, hmark]

/-- C15: for every non-empty pulse sequence and every `header_mark` with
`5 * header_mark / 4 ≤ 65535`, if the first low duration `d0` does not satisfy
`3 * header_mark / 4 ≤ d0 ≤ 5 * header_mark / 4` (integer divisions), then
`parse_manchester` returns `0`, whatever the other pulses, the header space
and the half period are. -/
theorem header_mark_out_of_band (hdr : rmt_symbol_word_t) (rest : List rmt_symbol_word_t)
    (header_mark header_space half_period : Nat)
    (hfit : 5 * header_mark / 4 ≤ 65535)
    (hout : ¬(3 * header_mark / 4 ≤ hdr.duration0 ∧ hdr.duration0 ≤ 5 * header_mark / 4)) :
    parse_manchester (hdr :: rest) header_mark header_space half_period = 0 := by
  apply parse_manchester_bad_mark
  rw [← Bool.not_eq_true, is_within_tolerance_iff _ _ hfit]
  exact hout

/-- C15 for the Airwell header mark `2850` (band `2137..3562`) and a first
low duration of `3563`, in front of an otherwise well-formed reception. -/
theorem header_mark_out_of_band_witness :
    5 * 2850 / 4 ≤ 65535 ∧ ¬(3 * 2850 / 4 ≤ 3563 ∧ 3563 ≤ 5 * 2850 / 4) ∧
    parse_manchester (⟨3563, 0, 3800, 1⟩ :: frame_cool_auto_20.tail) 2850 2850 950 = 0 :=
  ⟨by decide, by decide,
    header_mark_out_of_band ⟨3563, 0, 3800, 1⟩ frame_cool_auto_20.tail 2850 2850 950
      (by decide) (by decide)⟩

/-- C16 fails on the code: the header space `4700` of `frame_long_space` is
not within tolerance of `header_space = 2850`, and although it is within
tolerance of `header_space + half_period = 3800` its excess `1850` is not
within tolerance of `half_period = 950`; yet `parse_manchester` accepts the
header (with an empty backlog) and returns the word `1` of the body. -/
theorem header_space_overlong_accepted :
    is_within_tolerance 4700 2850 = false ∧
    is_within_tolerance 4700 (2850 + 950) = true ∧
    is_within_tolerance (4700 - 2850) 950 = false ∧
    parse_header_space ⟨2850, 0, 4700, 1⟩ 2850 950 = some (0, 0) ∧
    parse_manchester frame_long_space 2850 2850 950 = 1 := by
  refine ⟨by decide, by decide, by decide, by decide, by decide⟩

/-- The body parser consumes a pulse with two accepted durations. -/
theorem parse_data_cons_ok (half_period : Nat) (sym : rmt_symbol_word_t)
    (rest : List rmt_symbol_word_t) (i : Nat) (st : parse_state)
    (hlow : low_ok half_period sym = true) (hhigh : high_ok half_period sym = true) :
    parse_manchester_data half_period (sym :: rest) i st =
      parse_manchester_data half_period rest (i + 1) (after_pulse half_period st sym) := by
  simp only [low_ok, Bool.or_eq_true] at hlow
  simp only [high_ok, Bool.or_eq_true] at hhigh
  simp only [parse_manchester_data, after_pulse, after_low]
  rcases hlow with h | h <;> rcases hhigh with h2 | h2 <;> simp [h, h2]

/-- The body parser stops at a pulse with a rejected duration: before it when
the low duration is rejected, after its low phase when only the high one
is. -/
theorem parse_data_cons_miss (half_period : Nat) (sym : rmt_symbol_word_t)
    (rest : List rmt_symbol_word_t) (i : Nat) (st : parse_state)
    (hbad : low_ok half_period sym = false ∨ high_ok half_period sym = false) :
    parse_manchester_data half_period (sym :: rest) i st =
      (i, if low_ok half_period sym then after_low half_period st sym else st) := by
  by_cases hlow : low_ok half_period sym = true
  · have hhigh : high_ok half_period sym = false := by
      rcases hbad with h | h
      · rw [hlow] at h
        exact absurd h (by decide)
      · exact h
    rw [if_pos hlow]
    simp only [low_ok, Bool.or_eq_true] at hlow
    simp only [high_ok, Bool.or_eq_false_iff] at hhigh
    simp only [parse_manchester_data, after_low]
    rcases hlow with h | h <;> simp [h, hhigh.1, hhigh.2]
  · have hlow2 : low_ok half_period sym = false := by simpa using hlow
    rw [hlow2]
    simp only [low_ok, Bool.or_eq_false_iff] at hlow2
    simp [parse_manchester_data, hlow2.1, hlow2.2]

/-- The body parser runs through a prefix of accepted pulses. -/
theorem parse_data_prefix_ok (half_period : Nat) (pre rest : List rmt_symbol_word_t) :
    ∀ (i : Nat) (st : parse_state),
      (∀ s ∈ pre, low_ok half_period s = true ∧ high_ok half_period s = true) →
      parse_manchester_data half_period (pre ++ rest) i st =
        parse_manchester_data half_period rest (i + pre.length)
          (pre.foldl (after_pulse half_period) st) := by
  induction pre with
  | nil =>
    intro i st _
    rfl
  | cons x xs ih =>
    intro i st hall
    have hx := hall x (List.mem_cons_self x xs)
    rw [List.cons_append, parse_data_cons_ok half_period x _ i st hx.1 hx.2,
      ih (i + 1) _ (fun s hs => hall s (List.mem_cons_of_mem x hs))]
    simp only [List.length_cons, List.foldl_cons]
    congr 1
    omega

/-- C17, as stated, fails: `frame_body_miss` has a valid header (mark `2850`,
space `3800` seeding a backlog) and its second body pulse has a low duration
`500`, within tolerance of neither `950` nor `1900`; `parse_manchester`
returns the word `2` parsed from the first body pulse, not `0`. -/
theorem body_miss_keeps_value :
    is_within_tolerance 2850 2850 = true ∧
    parse_header_space ⟨2850, 0, 3800, 1⟩ 2850 950 = some (950, 1) ∧
    low_ok 950 ⟨500, 0, 950, 1⟩ = false ∧
    parse_manchester frame_body_miss 2850 2850 950 = 2 := by
  refine ⟨by decide, by decide, by decide, by decide⟩

/-- C17, amended: take a pulse sequence with a valid header, then `n` body
pulses whose two durations are each within tolerance of one or two half
periods, then a body pulse with a duration within tolerance of neither.
`parse_manchester` returns `0` when `n` is `0` (or a multiple of `2 ^ 16`, the
count being kept in 16 bits); otherwise it returns the value accumulated over
the `n` pulses, with in addition the low phase of the offending pulse applied
when only its high duration is rejected.  The pulses after the offending one
play no part. -/
theorem body_miss_ends_parse (hdr bad : rmt_symbol_word_t)
    (pre rest : List rmt_symbol_word_t)
    (header_mark header_space half_period backlog_length backlog_level : Nat)
    (hmark : is_within_tolerance hdr.duration0 header_mark = true)
    (hspace : parse_header_space hdr header_space half_period =
      some (backlog_length, backlog_level))
    (hpre : ∀ s ∈ pre, low_ok half_period s = true ∧ high_ok half_period s = true)
    (hbad : low_ok half_period bad = false ∨ high_ok half_period bad = false) :
    parse_manchester (hdr :: (pre ++ bad :: rest)) header_mark header_space half_period =
      if pre.length % 65536 = 0 then 0
      else
        (if low_ok half_period bad then
          after_low half_period
            (pre.foldl (after_pulse half_period) ⟨backlog_length, backlog_level, 0⟩) bad
        else pre.foldl (after_pulse half_period) ⟨backlog_length, backlog_level, 0⟩
        ).parsed_value := by
  simp only [parse_manchester, hmark, hspace, Bool.not_true, Bool.false_eq_true, if_false]
  rw [parse_data_prefix_ok half_period pre (bad :: rest) 0 _ hpre,
    parse_data_cons_miss half_period bad rest _ _ hbad]
  simp only [Nat.zero_add]

/-- C17 amended, on `frame_body_miss`: one accepted body pulse, then the
offending one; what comes back is the value after the first pulse, `2`. -/
theorem body_miss_ends_parse_witness :
    (∀ s ∈ [(⟨1900, 0, 950, 1⟩ : rmt_symbol_word_t)],
      low_ok 950 s = true ∧ high_ok 950 s = true) ∧
    low_ok 950 ⟨500, 0, 950, 1⟩ = false ∧
    parse_manchester frame_body_miss 2850 2850 950 =
      (after_pulse 950 ⟨950, 1, 0⟩ ⟨1900, 0, 950, 1⟩).parsed_value ∧
    (after_pulse 950 ⟨950, 1, 0⟩ ⟨1900, 0, 950, 1⟩).parsed_value = 2 := by
  have h := body_miss_ends_parse ⟨2850, 0, 3800, 1⟩ ⟨500, 0, 950, 1⟩ [⟨1900, 0, 950, 1⟩]
    [⟨950, 0, 950, 1⟩, ⟨950, 0, 1900, 1⟩, ⟨3800, 0, 32767, 1⟩] 2850 2850 950 950 1
    (by decide) (by decide) (by decide) (Or.inl (by decide))
  exact ⟨by decide, by decide, h, by decide⟩

/-! ### The shape of the encoder output -/

/-- The inner loop of `generate_manchester` lists the bits from the top one
down. -/
theorem generate_bits_eq_map (bit1 bit0 : rmt_symbol_word_t) (value n : Nat) :
    generate_bits bit1 bit0 value n =
      (List.range n).reverse.map (fun bit => if value.testBit bit then bit1 else bit0) := by
  induction n with
  | zero => rfl
  | succ k ih => simp [generate_bits, ih, List.range_succ]

/-- The outer loop of `generate_manchester` repeats one frame. -/
theorem generate_frames_eq_replicate (header bit1 bit0 : rmt_symbol_word_t)
    (value r : Nat) :
    generate_frames header bit1 bit0 value r =
      (List.replicate r (header :: generate_bits bit1 bit0 value 34)).flatten := by
  induction r with
  | zero => rfl
  | succ k ih => simp [generate_frames, ih, List.replicate_succ]

/-- The outer loop writes 35 symbols per repetition. -/
theorem generate_frames_length (header bit1 bit0 : rmt_symbol_word_t) (value r : Nat) :
    (generate_frames header bit1 bit0 value r).length = 35 * r := by
  induction r with
  | zero => rfl
  | succ k ih =>
    simp only [generate_frames, List.length_append, List.length_cons, generate_bits_length, ih]
    omega

/-- C18: for every repeat count `r`, word `v` and timings below `2 ^ 15`,
`generate_manchester` with a successful allocation returns `r` repetitions of
(one header symbol, level 0 for `header_mark` then level 1 for `header_space`,
followed by the 34 symbols of bits 33 down to 0 of `v`, a set bit being level
1 then level 0 and a clear bit level 0 then level 1, each for `half_period`),
then one closing symbol (level 0 for `tail_mark`, level 1 for `0x7FFF`): that is
`35 * r + 1` symbols, and the reported length is that count times the 4 bytes
of a symbol.  It fails only when the allocation fails. -/
theorem generate_manchester_shape
    (header_mark header_space r tail_mark half_period v : Nat)
    (hm : header_mark < 32768) (hs : header_space < 32768) (ht : tail_mark < 32768)
    (hp : half_period < 32768) :
    (∃ symbols,
      generate_manchester true header_mark header_space r tail_mark half_period v =
        some (symbols, sizeof_rmt_symbol_word_t * (35 * r + 1)) ∧
      symbols =
        (List.replicate r
          ((⟨header_mark, 0, header_space, 1⟩ : rmt_symbol_word_t) ::
            (List.range 34).reverse.map (fun bit =>
              if v.testBit bit then (⟨half_period, 1, half_period, 0⟩ : rmt_symbol_word_t)
              else ⟨half_period, 0, half_period, 1⟩))).flatten ++
          [⟨tail_mark, 0, 0x7FFF, 1⟩] ∧
      symbols.length = 35 * r + 1) ∧
    sizeof_rmt_symbol_word_t = 4 ∧
    generate_manchester false header_mark header_space r tail_mark half_period v = none := by
  have hgen : generate_manchester true header_mark header_space r tail_mark half_period v =
      some (generate_frames ⟨header_mark, 0, header_space, 1⟩
          ⟨half_period, 1, half_period, 0⟩ ⟨half_period, 0, half_period, 1⟩ v r ++
        [⟨tail_mark, 0, 0x7FFF, 1⟩], sizeof_rmt_symbol_word_t * (35 * r + 1)) := by
    simp only [generate_manchester, Bool.not_true, Bool.false_eq_true, if_false,
      Nat.mod_eq_of_lt hm, Nat.mod_eq_of_lt hs, Nat.mod_eq_of_lt ht, Nat.mod_eq_of_lt hp]
  refine ⟨⟨_, hgen, ?_, ?_⟩, rfl, rfl⟩
  · rw [generate_frames_eq_replicate, generate_bits_eq_map]
  · simp only [List.length_append, generate_frames_length, List.length_singleton]

/-- C18 for the call that `airwell_ir_send` makes (three repetitions, Airwell
timings) with the word `2`: 106 symbols, 424 bytes. -/
theorem generate_manchester_shape_witness :
    (2850 : Nat) < 32768 ∧ (3800 : Nat) < 32768 ∧ (950 : Nat) < 32768 ∧
    ∃ symbols, generate_manchester true 2850 2850 3 3800 950 2 = some (symbols, 424) ∧
      symbols.length = 106 ∧ symbols.getLast? = some ⟨3800, 0, 0x7FFF, 1⟩ := by
  obtain ⟨⟨symbols, hgen, hsym, hlen⟩, -, -⟩ :=
    generate_manchester_shape 2850 2850 3 3800 950 2 (by decide) (by decide) (by decide)
      (by decide)
  refine ⟨by decide, by decide, by decide, symbols, hgen, hlen, ?_⟩
  subst hsym
  decide

/-! ### `ac_initialize` and the persisted word -/

/-- The libc `tolower` maps no character other than NUL to `0`. -/
theorem tolower_ne_zero (c : Nat) (hc : c ≠ 0) : tolower c ≠ 0 := by
  simp only [tolower]
  split_ifs <;> omega

/-- On strings without NUL, `strcasecmp` returns `0` exactly when the two
strings agree after `tolower`. -/
theorem strcasecmp_chars_eq_zero_iff (a : List Char) :
    ∀ b : List Char, (∀ c ∈ a, c.toNat ≠ 0) → (∀ c ∈ b, c.toNat ≠ 0) →
      (strcasecmp_chars a b = 0 ↔
        a.map (fun c => tolower c.toNat) = b.map (fun c => tolower c.toNat)) := by
  induction a with
  | nil =>
    intro b _ hb
    cases b with
    | nil => simp [strcasecmp_chars]
    | cons y ys =>
      have hy := tolower_ne_zero y.toNat (hb y (List.mem_cons_self y ys))
      simp only [strcasecmp_chars, List.map_nil, List.map_cons]
      constructor
      · intro h0
        omega
      · intro h0
        exact absurd h0 (by simp)
  | cons x xs ih =>
    intro b ha hb
    cases b with
    | nil =>
      have hx := tolower_ne_zero x.toNat (ha x (List.mem_cons_self x xs))
      simp only [strcasecmp_chars, List.map_nil, List.map_cons]
      constructor
      · intro h0
        exact absurd h0 hx
      · intro h0
        exact absurd h0 (by simp)
    | cons y ys =>
      have ih2 := ih ys (fun c hc => ha c (List.mem_cons_of_mem x hc))
        (fun c hc => hb c (List.mem_cons_of_mem y hc))
      simp only [strcasecmp_chars, List.map_cons, List.cons.injEq]
      by_cases hxy : tolower x.toNat = tolower y.toNat
      · rw [if_pos hxy, ih2]
        simp [hxy]
      · rw [if_neg hxy]
        constructor
        · intro h0
          omega
        · intro h0
          exact absurd h0.1 hxy

/-- The lookup of `ac_initialize` finds Airwell or nothing. -/
theorem ac_initialize_loop_acs (model : String) :
    ac_initialize_loop model acs =
      if strcasecmp model "Airwell" ≠ 0 then none else some airwell := by
  simp only [acs, ac_initialize_loop, airwell]

/-- C19: on an engine without active profile, for every model name (a C
string, so without NUL), `ac_initialize(model)` returns `0` exactly when the
name, lowered letter by letter, is `airwell`.  On success the profile is
Airwell and the state is the five fields (and padding) unpacked from the word
that `config_ac_persistent_load` returns, nothing else being touched; on
failure the result is `-1` and the engine is as it was, so no profile is
active and the state is unchanged. -/
theorem ac_initialize_fresh (e : Engine) (model : String)
    (hfresh : e.ac_ops = none) (hc : ∀ c ∈ model.toList, c.toNat ≠ 0) :
    (( ac_initialize e model).2 = 0 ↔
      model.toList.map (fun c => tolower c.toNat) =
        "airwell".toList.map (fun c => (c.toNat : Int))) ∧
    (( ac_initialize e model).2 = 0 →
      ( ac_initialize e model).1 =
        { e with
          ac_ops := some airwell
          current_state := current_state_t.of_data (config_ac_persistent_load e) }) ∧
    (( ac_initialize e model).2 ≠ 0 →
      ( ac_initialize e model).2 = -1 ∧ ( ac_initialize e model).1 = e ∧
      ( ac_initialize e model).1.ac_ops = none) := by
  have hiff := strcasecmp_chars_eq_zero_iff model.toList "Airwell".toList hc (by decide)
  have hlow : "Airwell".toList.map (fun c => tolower c.toNat) =
      "airwell".toList.map (fun c => (c.toNat : Int)) := by decide
  rw [hlow] at hiff
  by_cases hs : strcasecmp model "Airwell" = 0
  · have hres : ac_initialize e model =
        ({ e with
            ac_ops := some airwell
            current_state := current_state_t.of_data (config_ac_persistent_load e) }, 0) := by
      simp only [ ac_initialize, ac_initialize_loop_acs, hs, ne_eq, not_true_eq_false,
        if_false]
      rfl
    rw [hres]
    refine ⟨?_, ?_, ?_⟩
    · simp only [true_iff]
      exact hiff.mp hs
    · intro _
      rfl
    · intro hne
      exact absurd rfl hne
  · have hres : ac_initialize e model = (e, -1) := by
      simp only [ ac_initialize, ac_initialize_loop_acs, hs, ne_eq, not_false_eq_true,
        if_true, hfresh]
    rw [hres]
    have hneg : ¬((-1 : Int) = 0) := by decide
    refine ⟨?_, ?_, ?_⟩
    · constructor
      · intro h0
        exact absurd h0 hneg
      · intro hl
        exact absurd (hiff.mpr hl) hs
    · intro h0
      exact absurd h0 hneg
    · intro _
      exact ⟨rfl, rfl, hfresh⟩

/-- C19 on a booted engine whose store holds the word `0x2052`, for the name
`AIRWELL`: success, and the state is the unpacked word (`power` on,
temperature `20`, mode COOL). -/
theorem ac_initialize_fresh_witness :
    (Engine.boot (some 0x2052) World.good).ac_ops = none ∧
    (∀ c ∈ "AIRWELL".toList, c.toNat ≠ 0) ∧
    ( ac_initialize (Engine.boot (some 0x2052) World.good) "AIRWELL").2 = 0 ∧
    ( ac_initialize (Engine.boot (some 0x2052) World.good) "AIRWELL").1.current_state =
      ⟨0, 1, 20, 0, 1, 0⟩ := by
  obtain ⟨hiff, hok, -⟩ :=
    ac_initialize_fresh (Engine.boot (some 0x2052) World.good) "AIRWELL" rfl (by decide)
  have h0 : ( ac_initialize (Engine.boot (some 0x2052) World.good) "AIRWELL").2 = 0 :=
    hiff.mpr (by decide)
  refine ⟨rfl, by decide, h0, ?_⟩
  rw [hok h0]
  decide

/-- Unpacking the word packed from a state whose fields fit gives the state
back. -/
theorem of_data_data (s : current_state_t) (hwf : s.wf) :
    current_state_t.of_data s.data = s := by
  obtain ⟨dp, pw, t, f, m, r⟩ := s
  simp only [current_state_t.wf] at hwf
  obtain ⟨h1, h2, h3, h4, h5, h6⟩ := hwf
  norm_num at h6
  simp only [current_state_t.of_data, current_state_t.data, current_state_t.mk.injEq]
  norm_num
  refine ⟨?_, ?_, ?_, ?_, ?_, ?_⟩ <;> omega

/-- Every state that `update_state` leaves fits its bit-fields, given that the
padding did before. -/
theorem updated_wf (s : current_state_t) (power temperature mode fan : Int)
    (hwf : s.wf) : (updated s power temperature mode fan).wf := by
  simp only [current_state_t.wf] at hwf ⊢
  obtain ⟨h1, h2, h3, h4, h5, h6⟩ := hwf
  simp only [updated, new_power, new_temperature, new_mode, new_fan]
  refine ⟨h1, ?_, ?_, ?_, ?_, h6⟩ <;> split_ifs <;> omega

/-- C20: for every state whose fields fit (`detected_power` and `power` below
2, `temperature` below 128, `fan` and `mode` below 16), the word `data` holds
`detected_power` at bit 0, `power` at bit 1, `temperature` at bits 2..8, `fan`
at bits 9..12 and `mode` at bits 13..16, above them only the padding (so
nothing when the padding is zero), and unpacking it yields the same state.
Hence, when the store accepts the write, the word that `update_state` saves is
the word `ac_initialize` loads next, and the state it restores is the state
that was saved. -/
theorem packed_state_round_trip :
    (∀ s : current_state_t, s.wf →
      s.data = s.detected_power + 2 ^ 1 * s.power + 2 ^ 2 * s.temperature +
        2 ^ 9 * s.fan + 2 ^ 13 * s.mode + 2 ^ 17 * s.reserved ∧
      (s.reserved = 0 → s.data < 2 ^ 17) ∧
      s.data < 2 ^ 64 ∧
      current_state_t.of_data s.data = s) ∧
    (∀ (e : Engine) (power temperature mode fan : Int),
      e.current_state.wf → e.world.nvs_ok = true →
      config_ac_persistent_load (update_state e power temperature mode fan) =
        (update_state e power temperature mode fan).current_state.data ∧
      ( ac_initialize (update_state e power temperature mode fan) "Airwell").2 = 0 ∧
      ( ac_initialize (update_state e power temperature mode fan) "Airwell").1.current_state =
        (update_state e power temperature mode fan).current_state) := by
  refine ⟨?_, ?_⟩
  · intro s hwf
    refine ⟨?_, ?_, ?_, of_data_data s hwf⟩
    · simp only [current_state_t.wf] at hwf
      obtain ⟨h1, h2, h3, h4, h5, h6⟩ := hwf
      norm_num at h6
      simp only [current_state_t.data]
      norm_num
      omega
    · intro hres
      simp only [current_state_t.wf] at hwf
      simp only [current_state_t.data, hres]
      norm_num
      omega
    · simp only [current_state_t.data]
      norm_num
      omega
  · intro e power temperature mode fan hwf hok
    have hload : config_ac_persistent_load (update_state e power temperature mode fan) =
        (update_state e power temperature mode fan).current_state.data := by
      simp only [config_ac_persistent_load, update_state_nvs, hok, if_true,
        update_state_current_state]
    refine ⟨hload, ?_, ?_⟩
    · rw [ac_initialize_airwell]
    · rw [ac_initialize_airwell]
      show current_state_t.of_data
        (config_ac_persistent_load (update_state e power temperature mode fan)) = _
      rw [hload, update_state_current_state]
      exact of_data_data _ (updated_wf _ _ _ _ _ hwf)

/-- C20 on the first-run engine after `update_state(1, 20, COOL, -1)`: the
saved word is `0x2052`, and initialising again restores `power` on,
temperature `20`, mode COOL. -/
theorem packed_state_round_trip_witness :
    Engine.demo.current_state.wf ∧ Engine.demo.world.nvs_ok = true ∧
    (update_state Engine.demo 1 20 AC_MODE_COOL (-1)).current_state.data = 0x2052 ∧
    ( ac_initialize (update_state Engine.demo 1 20 AC_MODE_COOL (-1)) "Airwell").1.current_state =
      ⟨0, 1, 20, 0, 1, 0⟩ := by
  have hwf : Engine.demo.current_state.wf := by
    simp only [current_state_t.wf]
    decide
  obtain ⟨-, -, hrt⟩ := packed_state_round_trip.2 Engine.demo 1 20 AC_MODE_COOL (-1) hwf rfl
  refine ⟨hwf, rfl, by decide, ?_⟩
  rw [hrt]
  decide

/-! ### The Airwell tables and the word built by `airwell_ir_send` -/

/-- C22: the two Airwell tables are read the same way in both directions.
For each of the modes COOL, HEAT, AUTO, DRY, FAN, `value_to_mode` of its
`mode_to_value` is the mode, and for each of the mode codes `1..5`,
`mode_to_value` of its `value_to_mode` is the code; the same holds for the
fans LOW, MEDIUM, HIGH, AUTO and the fan codes `0..3`.  A code without entry
gives `-1` in `value_to_mode`. -/
theorem airwell_tables_bidirectional :
    (∀ m ∈ [AC_MODE_COOL, AC_MODE_HEAT, AC_MODE_AUTO, AC_MODE_DRY, AC_MODE_FAN],
      value_to_mode airwell_modes (mode_to_value airwell_modes m) = m) ∧
    (∀ c ∈ [(1 : Int), 2, 3, 4, 5],
      mode_to_value airwell_modes (value_to_mode airwell_modes c) = c) ∧
    (∀ f ∈ [AC_FAN_LOW, AC_FAN_MEDIUM, AC_FAN_HIGH, AC_FAN_AUTO],
      value_to_mode airwell_fans (mode_to_value airwell_fans f) = f) ∧
    (∀ c ∈ [(0 : Int), 1, 2, 3],
      mode_to_value airwell_fans (value_to_mode airwell_fans c) = c) ∧
    (∀ c : Int, c ∉ [(1 : Int), 2, 3, 4, 5] → value_to_mode airwell_modes c = -1) ∧
    (∀ c : Int, c ∉ [(0 : Int), 1, 2, 3] → value_to_mode airwell_fans c = -1) := by
  refine ⟨by decide, by decide, by decide, by decide, ?_, ?_⟩
  · intro c hc
    simp only [List.mem_cons, List.mem_singleton, not_or] at hc
    simp only [value_to_mode, airwell_modes]
    split_ifs <;> first | rfl | omega
  · intro c hc
    simp only [List.mem_cons, List.mem_singleton, not_or] at hc
    simp only [value_to_mode, airwell_fans]
    split_ifs <;> first | rfl | omega

/-- C22 at the mode AUTO (canonical value `4`, vendor code `3`) and at the
code `7`, which has no entry. -/
theorem airwell_tables_bidirectional_witness :
    AC_MODE_AUTO ∈ [AC_MODE_COOL, AC_MODE_HEAT, AC_MODE_AUTO, AC_MODE_DRY, AC_MODE_FAN] ∧
    mode_to_value airwell_modes AC_MODE_AUTO = 3 ∧
    value_to_mode airwell_modes (mode_to_value airwell_modes AC_MODE_AUTO) = AC_MODE_AUTO ∧
    (7 : Int) ∉ [(1 : Int), 2, 3, 4, 5] ∧ value_to_mode airwell_modes 7 = -1 :=
  ⟨by decide, by decide, airwell_tables_bidirectional.1 AC_MODE_AUTO (by decide), by decide,
    airwell_tables_bidirectional.2.2.2.2.1 7 (by decide)⟩

/-- The word of `airwell_ir_send` as a sum of its five fields. -/
theorem airwell_word_sum (s : current_state_t) :
    airwell_word s =
      2 + 524288 * (((s.temperature : Int) - 15) % 16).toNat +
        268435456 * (mode_to_value airwell_fans s.fan % 4).toNat +
        1073741824 * (mode_to_value airwell_modes s.mode % 8).toNat +
        8589934592 * (if s.detected_power ≠ s.power then 1 else 0) := by
  simp only [airwell_word, airwell_t.raw]
  have h1 : ((1 : Int) % 2).toNat = 1 := by decide
  rw [h1]
  split_ifs <;> norm_num

/-- The field `temp` read back from the word of `airwell_ir_send`. -/
theorem airwell_word_temp (s : current_state_t) :
    airwell_t.temp (airwell_word s) = (((s.temperature : Int) - 15) % 16).toNat := by
  rw [airwell_word_sum]
  simp only [airwell_t.temp]
  have hb : (((s.temperature : Int) - 15) % 16).toNat < 16 := by omega
  have hc : ((mode_to_value airwell_fans s.fan) % 4).toNat < 4 := by omega
  have hd : ((mode_to_value airwell_modes s.mode) % 8).toNat < 8 := by omega
  generalize (((s.temperature : Int) - 15) % 16).toNat = b at hb ⊢
  generalize ((mode_to_value airwell_fans s.fan) % 4).toNat = c at hc ⊢
  generalize ((mode_to_value airwell_modes s.mode) % 8).toNat = d at hd ⊢
  split_ifs <;> omega

/-- The field `fan` read back from the word of `airwell_ir_send`. -/
theorem airwell_word_fan (s : current_state_t) :
    airwell_t.fan (airwell_word s) = (mode_to_value airwell_fans s.fan % 4).toNat := by
  rw [airwell_word_sum]
  simp only [airwell_t.fan]
  have hb : (((s.temperature : Int) - 15) % 16).toNat < 16 := by omega
  have hc : ((mode_to_value airwell_fans s.fan) % 4).toNat < 4 := by omega
  have hd : ((mode_to_value airwell_modes s.mode) % 8).toNat < 8 := by omega
  generalize (((s.temperature : Int) - 15) % 16).toNat = b at hb ⊢
  generalize ((mode_to_value airwell_fans s.fan) % 4).toNat = c at hc ⊢
  generalize ((mode_to_value airwell_modes s.mode) % 8).toNat = d at hd ⊢
  split_ifs <;> omega

/-- The field `mode` read back from the word of `airwell_ir_send`. -/
theorem airwell_word_mode (s : current_state_t) :
    airwell_t.mode (airwell_word s) = (mode_to_value airwell_modes s.mode % 8).toNat := by
  rw [airwell_word_sum]
  simp only [airwell_t.mode]
  have hb : (((s.temperature : Int) - 15) % 16).toNat < 16 := by omega
  have hc : ((mode_to_value airwell_fans s.fan) % 4).toNat < 4 := by omega
  have hd : ((mode_to_value airwell_modes s.mode) % 8).toNat < 8 := by omega
  generalize (((s.temperature : Int) - 15) % 16).toNat = b at hb ⊢
  generalize ((mode_to_value airwell_fans s.fan) % 4).toNat = c at hc ⊢
  generalize ((mode_to_value airwell_modes s.mode) % 8).toNat = d at hd ⊢
  split_ifs <;> omega

/-- The word of `airwell_ir_send` has bit 1 set and fits 34 bits. -/
theorem airwell_word_bounds (s : current_state_t) :
    2 ≤ airwell_word s ∧ airwell_word s < 2 ^ 34 ∧ airwell_word s / 2 % 2 = 1 := by
  rw [airwell_word_sum]
  have hb : (((s.temperature : Int) - 15) % 16).toNat < 16 := by omega
  have hc : ((mode_to_value airwell_fans s.fan) % 4).toNat < 4 := by omega
  have hd : ((mode_to_value airwell_modes s.mode) % 8).toNat < 8 := by omega
  generalize (((s.temperature : Int) - 15) % 16).toNat = b at hb ⊢
  generalize ((mode_to_value airwell_fans s.fan) % 4).toNat = c at hc ⊢
  generalize ((mode_to_value airwell_modes s.mode) % 8).toNat = d at hd ⊢
  norm_num
  split_ifs <;> omega

/-- C23: for every state (so for every state with `power` or `detected_power`
on, in which `airwell_ir_send` hands the word to `generate_manchester`), the
word has bit 33 set exactly when `detected_power` differs from `power`, bits
30..32 equal to `mode_to_value(airwell_modes, mode)` (the vendor code `1..5`
for the five modes, stored in 3 bits), bits 28..29 equal to
`mode_to_value(airwell_fans, fan)` (the vendor code `0..3` for the four fans,
stored in 2 bits), bits 19..22 equal to `(temperature - 15) mod 16`, bit 1 set
and every other bit clear. -/
theorem airwell_word_layout (s : current_state_t) :
    ((airwell_word s).testBit 33 = true ↔ s.detected_power ≠ s.power) ∧
    ((airwell_word s / 2 ^ 30 % 8 : Nat) : Int) = mode_to_value airwell_modes s.mode % 8 ∧
    ((s.mode : Int) ∈ [AC_MODE_COOL, AC_MODE_HEAT, AC_MODE_AUTO, AC_MODE_DRY, AC_MODE_FAN] →
      ((airwell_word s / 2 ^ 30 % 8 : Nat) : Int) = mode_to_value airwell_modes s.mode) ∧
    ((airwell_word s / 2 ^ 28 % 4 : Nat) : Int) = mode_to_value airwell_fans s.fan % 4 ∧
    ((s.fan : Int) ∈ [AC_FAN_LOW, AC_FAN_MEDIUM, AC_FAN_HIGH, AC_FAN_AUTO] →
      ((airwell_word s / 2 ^ 28 % 4 : Nat) : Int) = mode_to_value airwell_fans s.fan) ∧
    ((airwell_word s / 2 ^ 19 % 16 : Nat) : Int) = ((s.temperature : Int) - 15) % 16 ∧
    (airwell_word s).testBit 1 = true ∧
    (∀ i : Nat, i ∉ [1, 19, 20, 21, 22, 28, 29, 30, 31, 32, 33] →
      (airwell_word s).testBit i = false) ∧
    (∀ e : Engine, e.current_state = s →
      ¬(s.power = 0 ∧ s.detected_power = 0) → e.world.malloc_ok = true →
      ∃ symbols len,
        generate_manchester true 2850 2850 3 3800 950 (airwell_word s) = some (symbols, len) ∧
        (airwell_ir_send e).1.trace = e.trace ++ [Effect.ir_send symbols len]) := by
  have hmodes : ∀ m : Nat, m ≤ 4 →
      mode_to_value airwell_modes (m : Int) % 8 = mode_to_value airwell_modes (m : Int) := by
    decide
  have hfans : ∀ f : Nat, f ≤ 3 →
      mode_to_value airwell_fans (f : Int) % 4 = mode_to_value airwell_fans (f : Int) := by
    decide
  have hm := airwell_word_mode s
  have hf := airwell_word_fan s
  have ht := airwell_word_temp s
  have htog := airwell_word_toggle s
  simp only [airwell_t.mode, airwell_t.fan, airwell_t.temp, airwell_t.power_toggle]
    at hm hf ht htog
  refine ⟨?_, ?_, ?_, ?_, ?_, ?_, ?_, ?_, ?_⟩
  · rw [Nat.testBit_to_div_mod, htog]
    by_cases hne : s.detected_power ≠ s.power <;> simp [hne]
  · rw [hm]
    omega
  · intro hmem
    rw [hm, ← hmodes s.mode]
    · omega
    · simp only [AC_MODE_FAN, AC_MODE_COOL, AC_MODE_HEAT, AC_MODE_DRY, AC_MODE_AUTO,
        List.mem_cons, List.not_mem_nil, or_false] at hmem
      omega
  · rw [hf]
    omega
  · intro hmem
    rw [hf, ← hfans s.fan]
    · omega
    · simp only [AC_FAN_LOW, AC_FAN_MEDIUM, AC_FAN_HIGH, AC_FAN_AUTO, List.mem_cons,
        List.not_mem_nil, or_false] at hmem
      omega
  · rw [ht]
    omega
  · rw [Nat.testBit_to_div_mod]
    have := (airwell_word_bounds s).2.2
    simpa using this
  · intro i hi
    by_cases hlt : i < 34
    · rw [Nat.testBit_to_div_mod, airwell_word_sum]
      have hb : (((s.temperature : Int) - 15) % 16).toNat < 16 := by omega
      have hc : ((mode_to_value airwell_fans s.fan) % 4).toNat < 4 := by omega
      have hd : ((mode_to_value airwell_modes s.mode) % 8).toNat < 8 := by omega
      generalize (((s.temperature : Int) - 15) % 16).toNat = b at hb ⊢
      generalize ((mode_to_value airwell_fans s.fan) % 4).toNat = c at hc ⊢
      generalize ((mode_to_value airwell_modes s.mode) % 8).toNat = d at hd ⊢
      simp only [List.mem_cons, List.mem_singleton, not_or] at hi
      have hz : ∀ x : Nat, x % 2 = 0 → decide (x % 2 = 1) = false := by
        intro x hx
        simp [hx]
      apply hz
      interval_cases i <;> omega
    · apply Nat.testBit_lt_two_pow
      have h34 := (airwell_word_bounds s).2.1
      have hpow : 2 ^ 34 ≤ 2 ^ i := Nat.pow_le_pow_right (by norm_num) (by omega)
      omega
  · intro e hs hbusy hmalloc
    subst hs
    obtain ⟨symbols, len, hgen, hsend⟩ := airwell_ir_send_transmits e hbusy hmalloc
    exact ⟨symbols, len, hgen, by rw [hsend]⟩

/-- C23 on the first-run state with `detected_power` raised (temperature `0`,
mode FAN, fan LOW): toggle set, mode code `5`, fan code `0`, nibble
`(0 - 15) mod 16 = 1`. -/
theorem airwell_word_layout_witness :
    airwell_word ⟨1, 0, 0, 0, 0, 0⟩ = 0x340080002 ∧
    (airwell_word ⟨1, 0, 0, 0, 0, 0⟩).testBit 33 = true ∧
    ((airwell_word ⟨1, 0, 0, 0, 0, 0⟩ / 2 ^ 30 % 8 : Nat) : Int) = 5 ∧
    (airwell_word ⟨1, 0, 0, 0, 0, 0⟩).testBit 0 = false := by
  obtain ⟨htog, -, hmode, -, -, -, -, hzero, -⟩ := airwell_word_layout ⟨1, 0, 0, 0, 0, 0⟩
  refine ⟨by decide, htog.mpr (by decide), ?_, hzero 0 (by decide)⟩
  rw [hmode (by decide)]
  decide

/-- C26: for every state, whatever its five fields, the word built by
`airwell_ir_send` is not `0` (bit 1 is always set) and is below `2 ^ 34`; so a
word handed to the transmitter is never the `0` that `airwell_ir_recv` takes
for "nothing decoded". -/
theorem airwell_word_never_zero (s : current_state_t) :
    airwell_word s ≠ 0 ∧ airwell_word s < 2 ^ 34 ∧ (airwell_word s).testBit 1 = true ∧
    (∀ e : Engine, e.current_state = s → ∀ symbols len,
      (airwell_ir_send e).1.trace = e.trace ++ [Effect.ir_send symbols len] →
      ∃ w, w ≠ 0 ∧ w < 2 ^ 34 ∧
        generate_manchester true 2850 2850 3 3800 950 w = some (symbols, len)) := by
  obtain ⟨h2, h34, hbit⟩ := airwell_word_bounds s
  refine ⟨by omega, h34, ?_, ?_⟩
  · rw [Nat.testBit_to_div_mod]
    simpa using hbit
  · intro e hs symbols len htrace
    subst hs
    refine ⟨airwell_word e.current_state, by omega, h34, ?_⟩
    by_cases hidle : e.current_state.power = 0 ∧ e.current_state.detected_power = 0
    · rw [airwell_ir_send_idle e hidle] at htrace
      have := congrArg List.length htrace
      simp at this
    · cases hm : e.world.malloc_ok
      · rw [airwell_ir_send_no_memory e hidle hm] at htrace
        have := congrArg List.length htrace
        simp at this
      · obtain ⟨symbols2, len2, hgen, hsend⟩ := airwell_ir_send_transmits e hidle hm
        rw [hsend] at htrace
        have heq := List.append_cancel_left htrace
        simp only [List.cons.injEq, Effect.ir_send.injEq, and_true] at heq
        rw [← heq.1, ← heq.2]
        exact hgen

/-- C26 on the all-zero state: the word is `0x140080002`. -/
theorem airwell_word_never_zero_witness :
    airwell_word ⟨0, 0, 0, 0, 0, 0⟩ = 0x140080002 ∧ airwell_word ⟨0, 0, 0, 0, 0, 0⟩ ≠ 0 :=
  ⟨by decide, (airwell_word_never_zero ⟨0, 0, 0, 0, 0, 0⟩).1⟩

/-- C29: for every state with temperature in `[15,30]`, mode among COOL, HEAT,
AUTO, DRY, FAN and fan among LOW, MEDIUM, HIGH, AUTO, reading the fields
`temp`, `mode` and `fan` back from the word built by `airwell_ir_send` and
translating them as `airwell_ir_recv` does (`temp + 15`, `value_to_mode` on
`airwell_modes` and on `airwell_fans`) gives the temperature, mode and fan of
the state. -/
theorem airwell_word_round_trip (s : current_state_t)
    (ht : 15 ≤ s.temperature ∧ s.temperature ≤ 30)
    (hm : (s.mode : Int) ∈ [AC_MODE_COOL, AC_MODE_HEAT, AC_MODE_AUTO, AC_MODE_DRY,
      AC_MODE_FAN])
    (hf : (s.fan : Int) ∈ [AC_FAN_LOW, AC_FAN_MEDIUM, AC_FAN_HIGH, AC_FAN_AUTO]) :
    (airwell_t.temp (airwell_word s) : Int) + 15 = s.temperature ∧
    value_to_mode airwell_modes (airwell_t.mode (airwell_word s)) = s.mode ∧
    value_to_mode airwell_fans (airwell_t.fan (airwell_word s)) = s.fan := by
  have hmodes : ∀ m : Nat, m ≤ 4 →
      value_to_mode airwell_modes
        (((mode_to_value airwell_modes (m : Int) % 8).toNat : Nat) : Int) = (m : Int) := by
    decide
  have hfans : ∀ f : Nat, f ≤ 3 →
      value_to_mode airwell_fans
        (((mode_to_value airwell_fans (f : Int) % 4).toNat : Nat) : Int) = (f : Int) := by
    decide
  simp only [AC_MODE_FAN, AC_MODE_COOL, AC_MODE_HEAT, AC_MODE_DRY, AC_MODE_AUTO,
    List.mem_cons, List.not_mem_nil, or_false] at hm
  simp only [AC_FAN_LOW, AC_FAN_MEDIUM, AC_FAN_HIGH, AC_FAN_AUTO, List.mem_cons,
    List.not_mem_nil, or_false] at hf
  rw [airwell_word_temp, airwell_word_mode, airwell_word_fan]
  refine ⟨by omega, hmodes s.mode (by omega), hfans s.fan (by omega)⟩

/-- C29 on the state temperature `20`, mode COOL, fan AUTO with `power`
on. -/
theorem airwell_word_round_trip_witness :
    (airwell_t.temp (airwell_word ⟨0, 1, 20, 3, 1, 0⟩) : Int) + 15 = 20 ∧
    value_to_mode airwell_modes (airwell_t.mode (airwell_word ⟨0, 1, 20, 3, 1, 0⟩)) =
      AC_MODE_COOL ∧
    value_to_mode airwell_fans (airwell_t.fan (airwell_word ⟨0, 1, 20, 3, 1, 0⟩)) =
      AC_FAN_AUTO :=
  airwell_word_round_trip ⟨0, 1, 20, 3, 1, 0⟩ (by decide) (by decide) (by decide)

/-! ### The body parser, pulse by pulse -/

/-- Setting the low bit of an even number adds one. -/
theorem two_mul_lor_one (y : Nat) : (2 * y) ||| 1 = 2 * y + 1 := by
  have := Nat.lor_bit false y true 0
  simpa [Nat.bit] using this

/-- The statements `*parsed_value <<= 1; *parsed_value |= 1;` on a
`uint64_t`. -/
theorem shift_or_one (y : Nat) : (y * 2 % 2 ^ 64) ||| 1 = (2 * y + 1) % 2 ^ 64 := by
  have h : y * 2 % 2 ^ 64 = 2 * (y % 2 ^ 63) := by omega
  rw [h, two_mul_lor_one]
  omega

/-- The statements `*parsed_value <<= 1; *parsed_value |= 0;` on a
`uint64_t`. -/
theorem shift_or_zero (y : Nat) : (y * 2 % 2 ^ 64) ||| 0 = (2 * y) % 2 ^ 64 := by
  rw [Nat.or_zero, Nat.mul_comm]

/-- C24: let a body pulse have both durations within tolerance of
`half_period` or of `2 * half_period` (`half_period` below `2 ^ 15`).  Then
`parse_manchester_data` consumes it, and the out-parameters go through a state
`st1` after the low phase to a state `st2` after the high phase such that: in
the low phase, if a backlog is pending with level 1, the value becomes
`2 * value + 1` (as a `uint64_t`) and the backlog becomes (level 0,
`half_period`) when the low duration is within tolerance of
`2 * half_period` and empty otherwise, else the value is unchanged and the
backlog becomes (level 0, `half_period`); in the high phase, if a backlog is
pending with level 0, the value becomes `2 * value` and the backlog becomes
(level 1, `half_period`) when the high duration is within tolerance of
`2 * half_period` and empty otherwise, else the value is unchanged and the
backlog becomes (level 1, `half_period`). -/
theorem body_bit_rule (half_period : Nat) (sym : rmt_symbol_word_t)
    (rest : List rmt_symbol_word_t) (i : Nat) (st : parse_state)
    (hhp : half_period < 32768)
    (hlow : is_within_tolerance sym.duration0 half_period = true ∨
      is_within_tolerance sym.duration0 (2 * half_period) = true)
    (hhigh : is_within_tolerance sym.duration1 half_period = true ∨
      is_within_tolerance sym.duration1 (2 * half_period) = true) :
    ∃ st1 st2 : parse_state,
      parse_manchester_data half_period (sym :: rest) i st =
        parse_manchester_data half_period rest (i + 1) st2 ∧
      (st.backlog_length ≠ 0 ∧ st.backlog_level = 1 →
        st1.parsed_value = (2 * st.parsed_value + 1) % 2 ^ 64 ∧
        (st.parsed_value < 2 ^ 63 → st1.parsed_value = 2 * st.parsed_value + 1) ∧
        (is_within_tolerance sym.duration0 (2 * half_period) = true →
          st1.backlog_level = 0 ∧ st1.backlog_length = half_period) ∧
        (is_within_tolerance sym.duration0 (2 * half_period) = false →
          st1.backlog_length = 0)) ∧
      (¬(st.backlog_length ≠ 0 ∧ st.backlog_level = 1) →
        st1.parsed_value = st.parsed_value ∧ st1.backlog_level = 0 ∧
        st1.backlog_length = half_period) ∧
      (st1.backlog_length ≠ 0 ∧ st1.backlog_level = 0 →
        st2.parsed_value = (2 * st1.parsed_value) % 2 ^ 64 ∧
        (st1.parsed_value < 2 ^ 63 → st2.parsed_value = 2 * st1.parsed_value) ∧
        (is_within_tolerance sym.duration1 (2 * half_period) = true →
          st2.backlog_level = 1 ∧ st2.backlog_length = half_period) ∧
        (is_within_tolerance sym.duration1 (2 * half_period) = false →
          st2.backlog_length = 0)) ∧
      (¬(st1.backlog_length ≠ 0 ∧ st1.backlog_level = 0) →
        st2.parsed_value = st1.parsed_value ∧ st2.backlog_level = 1 ∧
        st2.backlog_length = half_period) := by
  have hdouble : half_period * 2 % 65536 = 2 * half_period := by omega
  have hlow2 : low_ok half_period sym = true := by
    simp only [low_ok, hdouble, Bool.or_eq_true]
    exact hlow.symm
  have hhigh2 : high_ok half_period sym = true := by
    simp only [high_ok, hdouble, Bool.or_eq_true]
    exact hhigh.symm
  refine ⟨after_low half_period st sym, after_pulse half_period st sym,
    parse_data_cons_ok half_period sym rest i st hlow2 hhigh2, ?_, ?_, ?_, ?_⟩
  · intro hpend
    simp only [after_low, low_phase, hdouble, if_pos hpend, shift_or_one]
    refine ⟨?_, ?_, ?_, ?_⟩
    · split_ifs <;> rfl
    · intro hv
      split_ifs <;> exact Nat.mod_eq_of_lt (by omega)
    · intro hd
      simp [hd]
    · intro hd
      simp [hd]
  · intro hpend
    simp only [after_low, low_phase, if_neg hpend]
    simp
  · intro hpend
    simp only [after_pulse, high_phase, hdouble, if_pos hpend, shift_or_zero]
    refine ⟨?_, ?_, ?_, ?_⟩
    · split_ifs <;> rfl
    · intro hv
      split_ifs <;> exact Nat.mod_eq_of_lt (by omega)
    · intro hd
      simp [hd]
    · intro hd
      simp [hd]
  · intro hpend
    simp only [after_pulse, high_phase, if_neg hpend]
    simp

/-- C24 on the pulse (low `1900`, high `950`) met with a pending backlog of
level 1 and value `0`, for the Airwell half period: both phases append a bit,
giving `1` and then `2`, and the backlog ends empty. -/
theorem body_bit_rule_witness :
    (950 : Nat) < 32768 ∧ is_within_tolerance 1900 (2 * 950) = true ∧
    is_within_tolerance 950 950 = true ∧
    ∃ st2, parse_manchester_data 950 [⟨1900, 0, 950, 1⟩] 0 ⟨950, 1, 0⟩ = (1, st2) ∧
      st2.parsed_value = 2 ∧ st2.backlog_length = 0 := by
  obtain ⟨st1, st2, hstep, hlow, -, hhigh, -⟩ :=
    body_bit_rule 950 ⟨1900, 0, 950, 1⟩ [] 0 ⟨950, 1, 0⟩ (by decide)
      (Or.inr (by decide)) (Or.inl (by decide))
  obtain ⟨-, hv1, hb1, -⟩ := hlow ⟨by decide, rfl⟩
  have hv1b : st1.parsed_value = 1 := hv1 (by decide)
  obtain ⟨hlv, hlen⟩ := hb1 (by decide)
  obtain ⟨-, hv2, -, hb2⟩ := hhigh ⟨by rw [hlen]; decide, hlv⟩
  refine ⟨by decide, by decide, by decide, st2, hstep, ?_, hb2 (by decide)⟩
  rw [hv2 (by rw [hv1b]; decide), hv1b]

/-- Bits shifted in after one another. -/
theorem append_bits_append (v : Nat) (a b : List Bool) :
    append_bits v (a ++ b) = append_bits (append_bits v a) b := by
  simp only [append_bits, List.foldl_append]

/-- What one body pulse does to the out-parameters, whatever the value: it
shifts one or two bits in and leaves the backlog empty or at (level 1,
`half_period`). -/
theorem after_pulse_yield (half_period : Nat) (hhp : 1 ≤ half_period)
    (bl lv : Nat) (sym : rmt_symbol_word_t) :
    ∃ (bits : List Bool) (bl1 lv1 : Nat),
      (bits.length = 1 ∨ bits.length = 2) ∧
      (bl1 = 0 ∨ (bl1 = half_period ∧ lv1 = 1)) ∧
      (bl = 0 →
        is_within_tolerance sym.duration0 (half_period * 2 % 65536) = false →
        is_within_tolerance sym.duration1 (half_period * 2 % 65536) = false →
        bits = [false] ∧ bl1 = 0) ∧
      ∀ v, after_pulse half_period ⟨bl, lv, v⟩ sym = ⟨bl1, lv1, append_bits v bits⟩ := by
  have hne : half_period ≠ 0 := by omega
  by_cases hpend : bl ≠ 0 ∧ lv = 1
  · by_cases hdl : is_within_tolerance sym.duration0 (half_period * 2 % 65536) = true
    · by_cases hdh : is_within_tolerance sym.duration1 (half_period * 2 % 65536) = true
      · refine ⟨[true, false], half_period, 1, Or.inr rfl, Or.inr ⟨rfl, rfl⟩, ?_, ?_⟩
        · intro h0
          exact absurd h0 hpend.1
        · intro v
          have h1 := shift_or_one v
          norm_num at h1
          simp only [after_pulse, after_low, low_phase, high_phase, if_pos hpend]
          simp [hdl, hdh, hne, h1, append_bits]
          try omega
      · refine ⟨[true, false], 0, 0, Or.inr rfl, Or.inl rfl, ?_, ?_⟩
        · intro h0
          exact absurd h0 hpend.1
        · intro v
          have h1 := shift_or_one v
          norm_num at h1
          simp only [after_pulse, after_low, low_phase, high_phase, if_pos hpend]
          simp [hdl, hdh, hne, h1, append_bits]
          try omega
    · refine ⟨[true], half_period, 1, Or.inl rfl, Or.inr ⟨rfl, rfl⟩, ?_, ?_⟩
      · intro h0
        exact absurd h0 hpend.1
      · intro v
        have h1 := shift_or_one v
        norm_num at h1
        simp only [after_pulse, after_low, low_phase, high_phase, if_pos hpend]
        simp [hdl, hne, h1, append_bits]
  · by_cases hdh : is_within_tolerance sym.duration1 (half_period * 2 % 65536) = true
    · refine ⟨[false], half_period, 1, Or.inl rfl, Or.inr ⟨rfl, rfl⟩, ?_, ?_⟩
      · intro _ _ hd
        rw [hd] at hdh
        exact absurd hdh (by decide)
      · intro v
        simp only [after_pulse, after_low, low_phase, high_phase, if_neg hpend]
        simp [hdh, hne, append_bits, Nat.mul_comm]
    · refine ⟨[false], 0, 0, Or.inl rfl, Or.inl rfl, ?_, ?_⟩
      · intro _ _ _
        exact ⟨rfl, rfl⟩
      · intro v
        simp only [after_pulse, after_low, low_phase, high_phase, if_neg hpend]
        simp [hdh, hne, append_bits, Nat.mul_comm]

/-- What a run of body pulses does to the out-parameters, whatever the value:
between one and two bits per pulse are shifted in. -/
theorem after_pulses_yield (half_period : Nat) (hhp : 1 ≤ half_period)
    (pre : List rmt_symbol_word_t) :
    ∀ bl lv : Nat, ∃ (bits : List Bool) (bl1 lv1 : Nat),
      pre.length ≤ bits.length ∧ bits.length ≤ 2 * pre.length ∧
      (pre ≠ [] → bl1 = 0 ∨ (bl1 = half_period ∧ lv1 = 1)) ∧
      (bl = 0 →
        (∀ s ∈ pre,
          is_within_tolerance s.duration0 (half_period * 2 % 65536) = false ∧
          is_within_tolerance s.duration1 (half_period * 2 % 65536) = false) →
        bits = List.replicate pre.length false ∧ bl1 = 0) ∧
      ∀ v, pre.foldl (after_pulse half_period) ⟨bl, lv, v⟩ =
        ⟨bl1, lv1, append_bits v bits⟩ := by
  induction pre with
  | nil =>
    intro bl lv
    refine ⟨[], bl, lv, by simp, by simp, by simp, ?_, ?_⟩
    · intro h0 _
      exact ⟨rfl, h0⟩
    · intro v
      rfl
  | cons x xs ih =>
    intro bl lv
    obtain ⟨b1, bla, lva, hlen1, hback1, hsingle1, hval1⟩ :=
      after_pulse_yield half_period hhp bl lv x
    obtain ⟨b2, blb, lvb, hlo, hhi, hback2, hsingle2, hval2⟩ := ih bla lva
    refine ⟨b1 ++ b2, blb, lvb, ?_, ?_, ?_, ?_, ?_⟩
    · simp only [List.length_append, List.length_cons]
      omega
    · simp only [List.length_append, List.length_cons]
      omega
    · intro _
      by_cases hxs : xs = []
      · subst hxs
        have h := hval2 0
        simp only [List.foldl_nil, parse_state.mk.injEq] at h
        rw [← h.1, ← h.2.1]
        exact hback1
      · exact hback2 hxs
    · intro h0 hall
      have hx := hall x (List.mem_cons_self x xs)
      obtain ⟨hb1, hbla⟩ := hsingle1 h0 hx.1 hx.2
      obtain ⟨hb2, hblb⟩ := hsingle2 hbla (fun s hs => hall s (List.mem_cons_of_mem x hs))
      refine ⟨?_, hblb⟩
      rw [hb1, hb2]
      simp [List.replicate_succ]
    · intro v
      rw [List.foldl_cons, hval1 v, hval2, append_bits_append]

/-- C28: for every `half_period ≥ 1` and every initial backlog (in particular
one that is empty or of length `half_period`), a run of `n` body pulses that `parse_manchester_data`
parses completely shifts between `n` and `2 n` bits into the value, the same
bits whatever the value was, and, unless `n = 0`, leaves the backlog empty or
at (level 1, `half_period`); for `n = 1` this is one or two bits per pulse.
When the run starts from an empty backlog and no duration is within tolerance
of two half periods, the bits are `n` zeros, so a value of `0` stays `0`. -/
theorem body_bit_yield (half_period : Nat) (hhp : 1 ≤ half_period)
    (bl lv : Nat) (pre rest : List rmt_symbol_word_t) (i : Nat)
    (hpre : ∀ s ∈ pre, low_ok half_period s = true ∧ high_ok half_period s = true) :
    ∃ (bits : List Bool) (bl1 lv1 : Nat),
      pre.length ≤ bits.length ∧ bits.length ≤ 2 * pre.length ∧
      (pre ≠ [] → bl1 = 0 ∨ (bl1 = half_period ∧ lv1 = 1)) ∧
      (∀ v, parse_manchester_data half_period (pre ++ rest) i ⟨bl, lv, v⟩ =
        parse_manchester_data half_period rest (i + pre.length)
          ⟨bl1, lv1, append_bits v bits⟩) ∧
      (bl = 0 →
        (∀ s ∈ pre,
          is_within_tolerance s.duration0 (half_period * 2 % 65536) = false ∧
          is_within_tolerance s.duration1 (half_period * 2 % 65536) = false) →
        bits = List.replicate pre.length false ∧ bl1 = 0 ∧
        append_bits 0 bits = 0) := by
  obtain ⟨bits, bl1, lv1, hlo, hhi, hback, hsingle, hval⟩ :=
    after_pulses_yield half_period hhp pre bl lv
  refine ⟨bits, bl1, lv1, hlo, hhi, hback, ?_, ?_⟩
  · intro v
    rw [parse_data_prefix_ok half_period pre rest i _ hpre, hval v]
  · intro h0 hall
    obtain ⟨hb, hb1⟩ := hsingle h0 hall
    refine ⟨hb, hb1, ?_⟩
    rw [hb]
    generalize pre.length = n
    induction n with
    | zero => rfl
    | succ k ih =>
      rw [List.replicate_succ]
      simpa [append_bits] using ih

/-- C28 on the first two body pulses of `frame_cool_auto_20`, met with the
backlog (level 1, `950`) that its header leaves: three bits are shifted in,
`1`, `0`, `0`. -/
theorem body_bit_yield_witness :
    (1 : Nat) ≤ 950 ∧
    ∃ bits : List Bool, 2 ≤ bits.length ∧ bits.length ≤ 4 ∧
      ∃ bl1 lv1, parse_manchester_data 950 [⟨1900, 0, 950, 1⟩, ⟨950, 0, 1900, 1⟩] 0
        ⟨950, 1, 0⟩ = (2, ⟨bl1, lv1, append_bits 0 bits⟩) := by
  obtain ⟨bits, bl1, lv1, hlo, hhi, -, hval, -⟩ :=
    body_bit_yield 950 (by decide) 950 1
      [⟨1900, 0, 950, 1⟩, ⟨950, 0, 1900, 1⟩] [] 0 (by decide)
  exact ⟨by decide, bits, hlo, hhi, bl1, lv1, hval 0⟩


/-! ### The handlers of `ac_mitm.c` -/

/-- The world is not touched by `update_state`. -/
theorem update_state_world (e : Engine) (power temperature mode fan : Int) :
    (update_state e power temperature mode fan).world = e.world := by
  rw [update_state_eq]

/-- C25: with the Airwell profile active, for every state and reception,
`ir_on_recv` first decodes.  When the codec yields no value the engine is as
it was: no transmit, state unchanged.  When it yields a word, the state is
updated by `ac_ir_recv` and then, the symbol buffer being allocated, exactly
one transmit is made, of the word built from the updated state, except that
none is made when `power` and `detected_power` are both off after the
update. -/
theorem ir_on_recv_dispatch (e : Engine) (symbols : List rmt_symbol_word_t)
    (h : e.ac_ops = some airwell) :
    (parse_manchester symbols 2850 2850 950 = 0 → ir_on_recv e symbols = some e) ∧
    (parse_manchester symbols 2850 2850 950 ≠ 0 →
      ∃ e1, ac_ir_recv e symbols = some (e1, 0) ∧
        (e1.current_state.power = 0 ∧ e1.current_state.detected_power = 0 →
          ir_on_recv e symbols = some e1) ∧
        (¬(e1.current_state.power = 0 ∧ e1.current_state.detected_power = 0) →
          e.world.malloc_ok = true →
          ∃ symbols2 len,
            generate_manchester true 2850 2850 3 3800 950 (airwell_word e1.current_state) =
              some (symbols2, len) ∧
            ir_on_recv e symbols =
              some { e1 with trace := e1.trace ++ [Effect.ir_send symbols2 len] })) := by
  refine ⟨?_, ?_⟩
  · intro h0
    have h0b : parse_manchester symbols (3 * 950) (3 * 950) 950 = 0 := h0
    simp only [ir_on_recv, ac_ir_recv_eq e symbols h, airwell_ir_recv_no_value e symbols h0b]
    rfl
  · intro hw
    have hwb : parse_manchester symbols (3 * 950) (3 * 950) 950 ≠ 0 := hw
    have hrecv := airwell_ir_recv_decoded e symbols hwb
    generalize hargp : (if airwell_t.power_toggle
      (parse_manchester symbols (3 * 950) (3 * 950) 950) ≠ 0
        then (if e.current_state.power = 0 then (1 : Int) else 0) else -1) = p at hrecv
    generalize hargt : ((airwell_t.temp
      (parse_manchester symbols (3 * 950) (3 * 950) 950) : Int) + 15) = t at hrecv
    generalize hargm : value_to_mode airwell_modes
      (airwell_t.mode (parse_manchester symbols (3 * 950) (3 * 950) 950)) = m at hrecv
    generalize hargf : value_to_mode airwell_fans
      (airwell_t.fan (parse_manchester symbols (3 * 950) (3 * 950) 950)) = f at hrecv
    have hops : (update_state e p t m f).ac_ops = some airwell := by
      rw [update_state_ac_ops, h]
    have hrun : ir_on_recv e symbols =
        some (airwell_ir_send (update_state e p t m f)).1 := by
      simp only [ir_on_recv, ac_ir_recv_eq e symbols h, hrecv,
        ac_ir_send_eq (update_state e p t m f) hops]
      rfl
    refine ⟨update_state e p t m f, by rw [ac_ir_recv_eq e symbols h, hrecv], ?_, ?_⟩
    · intro hidle
      rw [hrun, airwell_ir_send_idle _ hidle]
    · intro hbusy hmalloc
      have hm2 : (update_state e p t m f).world.malloc_ok = true := by
        rw [update_state_world]
        exact hmalloc
      obtain ⟨symbols2, len, hgen, hsend⟩ :=
        airwell_ir_send_transmits (update_state e p t m f) hbusy hm2
      exact ⟨symbols2, len, hgen, by rw [hrun, hsend]⟩

/-- C25 on the first-run engine: a reception with a bad header mark changes
nothing, and the reception `frame_cool_auto_20` switches `power` on and is
answered by one transmit. -/
theorem ir_on_recv_dispatch_witness :
    Engine.demo.ac_ops = some airwell ∧
    ir_on_recv Engine.demo (⟨1000, 0, 2850, 1⟩ :: frame_cool_auto_20.tail) =
      some Engine.demo ∧
    ∃ e1 symbols2 len, ac_ir_recv Engine.demo frame_cool_auto_20 = some (e1, 0) ∧
      ir_on_recv Engine.demo frame_cool_auto_20 =
        some { e1 with trace := e1.trace ++ [Effect.ir_send symbols2 len] } := by
  have hval : parse_manchester frame_cool_auto_20 2850 2850 950 = 0x270280002 := by decide
  refine ⟨demo_ac_ops,
    (ir_on_recv_dispatch Engine.demo _ demo_ac_ops).1 (by decide), ?_⟩
  obtain ⟨e1, hrecv, -, hbusy⟩ :=
    (ir_on_recv_dispatch Engine.demo frame_cool_auto_20 demo_ac_ops).2 (by rw [hval]; decide)
  have hstate : e1.current_state.power = 1 := by
    have h2 : (ac_ir_recv Engine.demo frame_cool_auto_20).map
        (fun r => r.1.current_state.power) = some 1 := by decide
    rw [hrecv] at h2
    exact Option.some.inj h2
  obtain ⟨symbols2, len, -, hrun⟩ := hbusy (by rw [hstate]; simp) rfl
  exact ⟨e1, symbols2, len, hrecv, hrun⟩

/-- C27: with the Airwell profile active, for every state and every mode value
outside COOL, HEAT, AUTO, DRY, FAN (such as `-1`), `ac_on_mqtt_mode` returns
with `power` on and every other field, the mode included, as before; the log
gains the power callback when `power` was not on (and the callback is
registered), then one persistence call of the new state, and no transmit. -/
theorem ac_on_mqtt_mode_unsupported (e : Engine) (mode : Int)
    (h : e.ac_ops = some airwell)
    (hun : mode ∉ [AC_MODE_COOL, AC_MODE_HEAT, AC_MODE_AUTO, AC_MODE_DRY, AC_MODE_FAN]) :
    ∃ e1, ac_on_mqtt_mode e mode = some e1 ∧
      e1.current_state = { e.current_state with power := 1 } ∧
      e1.trace = e.trace ++
        (if e.current_state.power ≠ 1 ∧ e.on_power_changed_cb = true
          then [Effect.on_power_changed true] else []) ++
        [Effect.config_ac_persistent_save e1.current_state.data] ∧
      e1.trace.filter Effect.is_transmit = e.trace.filter Effect.is_transmit := by
  simp only [AC_MODE_FAN, AC_MODE_COOL, AC_MODE_HEAT, AC_MODE_DRY, AC_MODE_AUTO,
    List.mem_cons, List.not_mem_nil, or_false] at hun
  have hops : (update_state e 1 (-1) (-1) (-1)).ac_ops = some airwell := by
    rw [update_state_ac_ops, h]
  have hrun : ac_on_mqtt_mode e mode = some (update_state e 1 (-1) (-1) (-1)) := by
    simp only [ac_on_mqtt_mode, ac_set_power, if_true, ac_set_mode, hops,
      ac_set_mode_loop_airwell]
    simp only [AC_MODE_FAN, AC_MODE_COOL, AC_MODE_HEAT, AC_MODE_DRY, AC_MODE_AUTO]
    rw [if_neg hun]
    rfl
  have hstate : updated e.current_state 1 (-1) (-1) (-1) =
      { e.current_state with power := 1 } := by
    simp only [updated, new_power, new_temperature, new_mode, new_fan]
    by_cases hp : (e.current_state.power : Int) ≠ 1
    · simp [hp]
    · have hp1 : e.current_state.power = 1 := by omega
      simp [hp1]
  have hfired : fired e 1 (-1) (-1) (-1) =
      if e.current_state.power ≠ 1 ∧ e.on_power_changed_cb = true
        then [Effect.on_power_changed true] else [] := by
    simp only [fired]
    by_cases hp : e.current_state.power = 1
    · simp [hp]
    · have hp1 : (e.current_state.power : Int) ≠ 1 := by omega
      by_cases hcb : e.on_power_changed_cb = true <;> simp [hp, hp1, hcb]
  refine ⟨update_state e 1 (-1) (-1) (-1), hrun, ?_, ?_, ?_⟩
  · rw [update_state_current_state, hstate]
  · rw [update_state_trace, update_state_current_state, hfired]
  · rw [update_state_trace, hfired]
    by_cases hc : e.current_state.power ≠ 1 ∧ e.on_power_changed_cb = true
    · simp [hc, List.filter_append, Effect.is_transmit]
    · rw [if_neg hc]
      simp [List.filter_append, Effect.is_transmit]

/-- C27 on the first-run engine (`power` off) with the mode value `-1`:
`power` is switched on, with its callback and one persistence call, and the
mode stays `0`. -/
theorem ac_on_mqtt_mode_unsupported_witness :
    Engine.demo.ac_ops = some airwell ∧
    (-1 : Int) ∉ [AC_MODE_COOL, AC_MODE_HEAT, AC_MODE_AUTO, AC_MODE_DRY, AC_MODE_FAN] ∧
    ∃ e1, ac_on_mqtt_mode Engine.demo (-1) = some e1 ∧
      e1.current_state = ⟨0, 1, 0, 0, 0, 0⟩ ∧
      e1.trace = [Effect.on_power_changed true, Effect.config_ac_persistent_save 2] := by
  obtain ⟨e1, hrun, hstate, htrace, -⟩ :=
    ac_on_mqtt_mode_unsupported Engine.demo (-1) demo_ac_ops (by decide)
  refine ⟨demo_ac_ops, by decide, e1, hrun, ?_, ?_⟩
  · rw [hstate]
    rfl
  · rw [htrace, hstate]
    rfl

/-- On a reception with the Airwell profile active and a word other than `0`,
`ac_ir_recv` is `decode_update` of that word. -/
theorem ac_ir_recv_decode_update (e : Engine) (symbols : List rmt_symbol_word_t)
    (h : e.ac_ops = some airwell) (hw : parse_manchester symbols 2850 2850 950 ≠ 0) :
    ac_ir_recv e symbols =
      some (decode_update e (parse_manchester symbols 2850 2850 950), 0) := by
  have hwb : parse_manchester symbols (3 * 950) (3 * 950) 950 ≠ 0 := hw
  rw [ac_ir_recv_eq e symbols h, airwell_ir_recv_decoded e symbols hwb]
  rfl

/-- The fields of the state after `decode_update`. -/
theorem decode_update_fields (e : Engine) (w : Nat) :
    (decode_update e w).ac_ops = e.ac_ops ∧
    (decode_update e w).current_state.power =
      (if w.testBit 33 then (if e.current_state.power = 0 then 1 else 0)
        else e.current_state.power) ∧
    (decode_update e w).current_state.temperature = w / 2 ^ 19 % 16 + 15 ∧
    (value_to_mode airwell_modes (airwell_t.mode w) ≠ -1 →
      ((decode_update e w).current_state.mode : Int) =
        value_to_mode airwell_modes (airwell_t.mode w)) ∧
    (value_to_mode airwell_modes (airwell_t.mode w) = -1 →
      (decode_update e w).current_state.mode = e.current_state.mode) ∧
    ((decode_update e w).current_state.fan : Int) =
      value_to_mode airwell_fans (airwell_t.fan w) ∧
    (decode_update e w).current_state.detected_power = e.current_state.detected_power := by
  have hm2 := new_mode_of_code e.current_state _ (value_to_mode_airwell_modes w)
  refine ⟨update_state_ac_ops _ _ _ _ _, ?_, ?_, ?_, ?_, ?_, ?_⟩
  · rw [decode_update, update_state_current_state]
    exact new_power_of_word e.current_state w
  · rw [decode_update, update_state_current_state]
    exact new_temperature_of_word e.current_state w
  · rw [decode_update, update_state_current_state]
    exact hm2.1
  · rw [decode_update, update_state_current_state]
    exact hm2.2
  · rw [decode_update, update_state_current_state]
    exact new_fan_of_code e.current_state _ (value_to_mode_airwell_fans w)
  · rw [decode_update, update_state_current_state]
    rfl

/-- C30: for every state (`power` being one bit) and every word `w`, applying
the update that `airwell_ir_recv` makes for `w` twice in a row gives: when bit
33 of `w` is set, `power` negated after the first application and back at its
original value after the second; when bit 33 is clear, `power` unchanged by
both; and `temperature`, `mode`, `fan` and `detected_power` after the second
application equal to those after the first.  With the Airwell profile active,
that update is what `ac_ir_recv` does on every reception decoded to a word
`w` other than `0`, also the second time. -/
theorem power_toggle_involution (e : Engine) (w : Nat) (hp : e.current_state.power < 2) :
    (w.testBit 33 = true →
      (decode_update e w).current_state.power = 1 - e.current_state.power ∧
      (decode_update (decode_update e w) w).current_state.power = e.current_state.power) ∧
    (w.testBit 33 = false →
      (decode_update e w).current_state.power = e.current_state.power ∧
      (decode_update (decode_update e w) w).current_state.power = e.current_state.power) ∧
    (decode_update (decode_update e w) w).current_state.temperature =
      (decode_update e w).current_state.temperature ∧
    (decode_update (decode_update e w) w).current_state.mode =
      (decode_update e w).current_state.mode ∧
    (decode_update (decode_update e w) w).current_state.fan =
      (decode_update e w).current_state.fan ∧
    (decode_update (decode_update e w) w).current_state.detected_power =
      (decode_update e w).current_state.detected_power ∧
    (∀ symbols, e.ac_ops = some airwell → parse_manchester symbols 2850 2850 950 = w →
      w ≠ 0 →
      ac_ir_recv e symbols = some (decode_update e w, 0) ∧
      ac_ir_recv (decode_update e w) symbols =
        some (decode_update (decode_update e w) w, 0)) := by
  obtain ⟨hops1, hp1, ht1, hm1, hmn1, hf1, hd1⟩ := decode_update_fields e w
  obtain ⟨-, hp2, ht2, hm2, hmn2, hf2, hd2⟩ := decode_update_fields (decode_update e w) w
  refine ⟨?_, ?_, ?_, ?_, ?_, hd2, ?_⟩
  · intro hb
    rw [hp2, hp1]
    simp only [hb, if_true]
    by_cases h0 : e.current_state.power = 0
    · simp [h0]
    · have h1 : e.current_state.power = 1 := by omega
      simp [h1]
  · intro hb
    rw [hp2, hp1]
    simp [hb]
  · rw [ht2, ht1]
  · by_cases hm : value_to_mode airwell_modes (airwell_t.mode w) = -1
    · exact hmn2 hm
    · exact_mod_cast (hm2 hm).trans (hm1 hm).symm
  · exact_mod_cast hf2.trans hf1.symm
  · intro symbols h hwdef hw
    subst hwdef
    exact ⟨ac_ir_recv_decode_update e symbols h hw,
      ac_ir_recv_decode_update _ symbols (by rw [hops1, h]) hw⟩

/-- C30 on the first-run engine and the word `0x270280002` of
`frame_cool_auto_20` (toggle set): `power` goes on, then off again, while the
temperature stays what the first reception made it. -/
theorem power_toggle_involution_witness :
    Engine.demo.current_state.power < 2 ∧
    Nat.testBit 0x270280002 33 = true ∧
    (decode_update Engine.demo 0x270280002).current_state.power = 1 ∧
    (decode_update (decode_update Engine.demo 0x270280002) 0x270280002).current_state.power
      = 0 ∧
    ac_ir_recv Engine.demo frame_cool_auto_20 =
      some (decode_update Engine.demo 0x270280002, 0) := by
  obtain ⟨htog, -, -, -, -, -, hrecv⟩ :=
    power_toggle_involution Engine.demo 0x270280002 (by decide)
  obtain ⟨hp1, hp2⟩ := htog (by decide)
  exact ⟨by decide, by decide, hp1, hp2,
    (hrecv frame_cool_auto_20 demo_ac_ops (by decide) (by decide)).1⟩

end AcMitm
